import Mathlib

/-!
Verification of the MCPServer validation-and-dispatch core.

This file gives a shallow embedding, in Lean 4, of the argument-validation
engine (`src/utils/validation.py`), the response formatter
(`src/utils/formatting.py`), and the two dispatchers
(`handle_call_tool` in `src/main.py` and `tool_executor_handler` in
`src/aws-deployment/src/lambda_handlers.py`), together with theorems about
their behaviour.

Modelling conventions:
- Python/JSON values are modelled by the inductive type `Value`
  (null, bool, int, str, list, dict).  Floats are outside the model: the
  embedding covers the integer-only fragment of JSON, which is all the
  claims under study touch.  Dict keys are strings (as in JSON payloads);
  insertion order of a Python dict is the order of the association list.
- Python code that can raise is embedded in the `Except String` monad; the
  string is the exception message (`str(e)`).  Messages mirror CPython where
  reasonable, but no theorem depends on the exact text of an exception
  message other than through the documented `"Validation error: "` prefix.
- `json.dumps(x, indent=2)` is modelled by a compact serializer
  (`jsonDumps`); the indentation whitespace is not modelled since both the
  pretty and the compact form denote the same JSON value and no code path
  inspects the whitespace.  `json.loads` is modelled by `jsonParse`, a
  parser for the same integer-only, whitespace-free fragment.
-/

namespace MCPServer

/-- JSON-like runtime values (the integer-only fragment; see header note). -/
inductive Value where
  | null : Value
  | bool (b : Bool) : Value
  | int (n : Int) : Value
  | str (s : String) : Value
  | list (items : List Value) : Value
  | dict (entries : List (String × Value)) : Value

/-- Association-list lookup for modelled dicts (first binding wins, as in a
Python dict whose keys are unique). -/
def getKey (k : String) : List (String × Value) → Option Value
  | [] => none
  | (k2, v) :: rest => if k2 = k then some v else getKey k rest

/-- Membership of a key in a modelled dict. -/
def hasKey (k : String) (d : List (String × Value)) : Bool :=
  (getKey k d).isSome

/-- Python item assignment `d[k] = v`: an existing key keeps its position,
a new key is appended at the end. -/
def setKey (k : String) (v : Value) : List (String × Value) → List (String × Value)
  | [] => [(k, v)]
  | (k2, w) :: rest => if k2 = k then (k2, v) :: rest else (k2, w) :: setKey k v rest

/-- Python truthiness of a modelled value. -/
def truthy : Value → Bool
  | .null => false
  | .bool b => b
  | .int n => n != 0
  | .str s => s != ""
  | .list l => !l.isEmpty
  | .dict d => !d.isEmpty

/-- Python `type(v).__name__` for a modelled value. -/
def typeName : Value → String
  | .null => "NoneType"
  | .bool _ => "bool"
  | .int _ => "int"
  | .str _ => "str"
  | .list _ => "list"
  | .dict _ => "dict"

/-- Python `repr` of a string: single-quoted by default, double-quoted
when the content holds a single quote but no double quote, escaping the
backslash and the chosen quote (control-character escaping is not
modelled). -/
def pyReprStr (s : String) : String :=
  let q : Char := if s.data.contains '\x27' && !s.data.contains '"' then '"' else '\x27'
  let body := s.data.flatMap fun c =>
    if c = '\\' then ['\\', '\\']
    else if c = q then ['\\', c]
    else [c]
  ⟨q :: (body ++ [q])⟩

mutual

/-- Python `repr(v)` for a modelled value. -/
def pyRepr : Value → String
  | .null => "None"
  | .bool b => if b then "True" else "False"
  | .int n => toString n
  | .str s => pyReprStr s
  | .list l => "[" ++ pyReprList l ++ "]"
  | .dict d => "\x7b" ++ pyReprEntries d ++ "\x7d"

/-- Comma-joined reprs of a list's elements. -/
def pyReprList : List Value → String
  | [] => ""
  | [v] => pyRepr v
  | v :: rest => pyRepr v ++ ", " ++ pyReprList rest

/-- Comma-joined reprs of a dict's entries. -/
def pyReprEntries : List (String × Value) → String
  | [] => ""
  | [(k, v)] => pyReprStr k ++ ": " ++ pyRepr v
  | (k, v) :: rest => pyReprStr k ++ ": " ++ pyRepr v ++ ", " ++ pyReprEntries rest

end

/-- Python `str(v)`: identity on strings, `repr` otherwise (as in f-string
interpolation of non-string values). -/
def pyStr : Value → String
  | .str s => s
  | v => pyRepr v

mutual

/-- Python `==` on modelled values: `bool` compares equal to the numerically
equal `int` (CPython treats `True == 1`); lists compare element-wise.
Dict equality is modelled order-sensitively (the dicts compared by the code
under study come from JSON objects with a fixed key order). -/
def pyEq : Value → Value → Bool
  | .null, .null => true
  | .bool a, .bool b => a == b
  | .bool a, .int n => (if a then (1 : Int) else 0) == n
  | .int n, .bool a => n == (if a then (1 : Int) else 0)
  | .int a, .int b => a == b
  | .str a, .str b => a == b
  | .list a, .list b => pyEqList a b
  | .dict a, .dict b => pyEqEntries a b
  | _, _ => false

/-- Element-wise Python `==` on lists. -/
def pyEqList : List Value → List Value → Bool
  | [], [] => true
  | a :: as2, b :: bs => pyEq a b && pyEqList as2 bs
  | _, _ => false

/-- Entry-wise Python `==` on dict association lists. -/
def pyEqEntries : List (String × Value) → List (String × Value) → Bool
  | [], [] => true
  | (k1, v1) :: as2, (k2, v2) :: bs => k1 == k2 && pyEq v1 v2 && pyEqEntries as2 bs
  | _, _ => false

end

/-- Python `obj.get(key, default)`; raises `AttributeError` unless `obj` is
a dict. -/
def pyGet (obj : Value) (key : String) (default : Value) : Except String Value :=
  match obj with
  | .dict d => .ok ((getKey key d).getD default)
  | v => .error ("\x27" ++ typeName v ++ "\x27 object has no attribute \x27get\x27")

/-- Python `obj[key]` for a string key; `KeyError` (whose `str` is the
repr of the key) on a dict miss, `TypeError` on non-dict containers. -/
def pyGetItem (obj : Value) (key : String) : Except String Value :=
  match obj with
  | .dict d =>
    match getKey key d with
    | some v => .ok v
    | none => .error ("\x27" ++ key ++ "\x27")
  | .list _ => .error "list indices must be integers or slices, not str"
  | .str _ => .error "string indices must be integers"
  | v => .error ("\x27" ++ typeName v ++ "\x27 object is not subscriptable")

/-- Python `obj[key] = v` for a string key. -/
def pySetItem (obj : Value) (key : String) (v : Value) : Except String Value :=
  match obj with
  | .dict d => .ok (.dict (setKey key v d))
  | w => .error ("\x27" ++ typeName w ++ "\x27 object does not support item assignment")

/-- Python iteration `for x in v`: lists yield elements, strings yield
one-character strings, dicts yield their keys; other values raise
`TypeError`. -/
def pyIter : Value → Except String (List Value)
  | .list l => .ok l
  | .str s => .ok (s.data.map fun c => .str (String.singleton c))
  | .dict d => .ok (d.map fun kv => .str kv.1)
  | v => .error ("\x27" ++ typeName v ++ "\x27 object is not iterable")

/-- Python `obj.items()`; raises `AttributeError` unless `obj` is a dict. -/
def pyItems : Value → Except String (List (String × Value))
  | .dict d => .ok d
  | v => .error ("\x27" ++ typeName v ++ "\x27 object has no attribute \x27items\x27")

/-- Occurrence of `t` as a contiguous run inside `s` (Python substring
membership `t in s`). -/
def infixOf (t : List Char) : List Char → Bool
  | [] => t.isEmpty
  | c :: rest => t.isPrefixOf (c :: rest) || infixOf t rest

/-- Python membership `item in container`: list membership under `==`,
dict key membership (unhashable items raise `TypeError`), substring test
for string containers, `TypeError` for non-containers. -/
def pyContains (container item : Value) : Except String Bool :=
  match container with
  | .list l => .ok (l.any (pyEq item))
  | .dict d =>
    match item with
    | .str s => .ok (hasKey s d)
    | .list _ => .error "unhashable type: \x27list\x27"
    | .dict _ => .error "unhashable type: \x27dict\x27"
    | _ => .ok false
  | .str s =>
    match item with
    | .str t => .ok (infixOf t.data s.data)
    | v => .error ("\x27in <string>\x27 requires string as left operand, not " ++ typeName v)
  | v => .error ("argument of type \x27" ++ typeName v ++ "\x27 is not iterable")

/-- Python numeric view of a value for arithmetic comparison: ints are
themselves and bools count as 0/1 (`bool` is a subclass of `int`); other
values have no numeric view. -/
def asNumber : Value → Option Int
  | .int n => some n
  | .bool b => some (if b then 1 else 0)
  | _ => none

/-- Python `a < v` where `a` is a known int and `v` a schema-supplied
value; cross-type comparison raises `TypeError`. -/
def pyLtNum (a : Int) (v : Value) : Except String Bool :=
  match asNumber v with
  | some m => .ok (a < m)
  | none =>
    .error ("\x27<\x27 not supported between instances of \x27int\x27 and \x27" ++ typeName v ++ "\x27")

/-- Python `a > v` for a known int against a schema-supplied value. -/
def pyGtNum (a : Int) (v : Value) : Except String Bool :=
  match asNumber v with
  | some m => .ok (a > m)
  | none =>
    .error ("\x27>\x27 not supported between instances of \x27int\x27 and \x27" ++ typeName v ++ "\x27")

/-- Python `a <= v` for a known int against a schema-supplied value. -/
def pyLeNum (a : Int) (v : Value) : Except String Bool :=
  match asNumber v with
  | some m => .ok (a ≤ m)
  | none =>
    .error ("\x27<=\x27 not supported between instances of \x27int\x27 and \x27" ++ typeName v ++ "\x27")

/-- Python `a >= v` for a known int against a schema-supplied value. -/
def pyGeNum (a : Int) (v : Value) : Except String Bool :=
  match asNumber v with
  | some m => .ok (a ≥ m)
  | none =>
    .error ("\x27>=\x27 not supported between instances of \x27int\x27 and \x27" ++ typeName v ++ "\x27")

/-- Python `a % v != 0` for a known int against a schema-supplied divisor;
`ZeroDivisionError` on a zero divisor, `TypeError` on a non-numeric one.
Only the zero test of the remainder is consumed by the code under study,
and `a % m == 0` agrees between CPython and Lean for every nonzero `m`. -/
def pyModNonzero (a : Int) (v : Value) : Except String Bool :=
  match asNumber v with
  | some m =>
    if m = 0 then .error "integer modulo by zero"
    else .ok (a % m != 0)
  | none =>
    .error ("unsupported operand type(s) for %: \x27int\x27 and \x27" ++ typeName v ++ "\x27")

/-! ### Model of `re.match`

The engine calls `re.match(pattern, value)` and only tests whether a match
object is returned.  `re.match` anchors at the start of `value` only: it
succeeds precisely when some prefix of `value` matches the pattern.  The
model covers the regex fragment consisting of literal characters, the
wildcard `.`, and an optional end anchor `$` in final position; theorems
about the pattern check restrict their pattern to this fragment. -/

/-- Matcher for the modelled regex fragment against an input, consuming the
input from the left; an exhausted pattern means success (prefix semantics),
a final `$` additionally requires the input to be exhausted. -/
def reMatchAux : List Char → List Char → Bool
  | [], _ => true
  | ['$'], rest => rest.isEmpty
  | _ :: _, [] => false
  | p :: ps, c :: cs => (p == '.' || p == c) && reMatchAux ps cs

/-- Model of `re.match(pattern, value) is not None` for patterns in the
modelled fragment. -/
def reMatch (pattern value : String) : Bool :=
  reMatchAux pattern.data value.data

/-- Whole-string match (the reading of "must match the whole supplied
value"): the pattern with an end anchor appended must accept the value. -/
def reFullMatch (pattern value : String) : Bool :=
  reMatchAux (pattern.data ++ ['$']) value.data

/-! ### The validation engine (`src/utils/validation.py`)

Each `_validate_*` function returns `Except String (List String)`: the
list of error messages appended by that function, or the message of the
exception the Python code would raise. -/

/-- Result of `validate_tool_arguments`: the dict
`\x7b"valid": bool, "errors": list\x7d` of the source. -/
structure VResult where
  valid : Bool
  errors : List String
deriving DecidableEq, Repr

/-- Python type mapping of `_validate_type`: `isinstance` against the type
named by a schema type string.  `bool` is a subclass of `int` in CPython,
so booleans satisfy `integer` and `number`. -/
def isInst (value : Value) (tyName : String) : Bool :=
  match tyName with
  | "string" => match value with | .str _ => true | _ => false
  | "integer" => match value with | .int _ => true | .bool _ => true | _ => false
  | "number" => match value with | .int _ => true | .bool _ => true | _ => false
  | "boolean" => match value with | .bool _ => true | _ => false
  | "array" => match value with | .list _ => true | _ => false
  | "object" => match value with | .dict _ => true | _ => false
  | "null" => match value with | .null => true | _ => false
  | _ => false

/-- Embedding of `_validate_type(value, expected_types)`: iterate the
expected types, skipping names absent from the type mapping (a non-string
entry is never in the mapping), and accept on the first `isinstance` hit. -/
def _validate_type (value : Value) (expected_types : Value) : Except String Bool := do
  let ts ← pyIter expected_types
  pure (ts.any fun et =>
    match et with
    | .str s => isInst value s
    | _ => false)

/-- Wrapping step of `_validate_field`: `isinstance(expected_types, str)`
turns a single type name into a one-element list. -/
def wrapType : Value → Value
  | .str s => .list [.str s]
  | v => v

/-- Regex whitespace class of CPython (`\s` over ASCII input). -/
def isSpaceChar (c : Char) : Bool :=
  c == ' ' || c == '\t' || c == '\n' || c == '\x0d' || c == '\x0b' || c == '\x0c'

/-- Characters allowed in a URI scheme after the leading letter
(`[a-zA-Z\d+\-\.]`). -/
def schemeChar (c : Char) : Bool :=
  c.isAlpha || c.isDigit || c == '+' || c == '-' || c == '.'

/-- Scheme scan of `_is_valid_uri`: consume scheme characters up to the
first colon, then hand off to the post-colon check. -/
def uriScanScheme : List Char → Bool
  | [] => false
  | c :: rest => if c == ':' then uriAfterColon rest else schemeChar c && uriScanScheme rest
where
  /-- After the colon the pattern requires `//` and then an arbitrary
  whitespace-free remainder (the authority/path/rest groups of the source
  pattern allow any split of such a remainder). -/
  uriAfterColon : List Char → Bool
    | '/' :: '/' :: rest => rest.all fun c => !isSpaceChar c
    | _ => false

/-- Embedding of `_is_valid_uri`: the source pattern
`^[a-zA-Z][a-zA-Z\d+\-\.]*://...$` accepts exactly a letter-led scheme, a
colon, `//`, and a whitespace-free remainder (possibly empty). -/
def _is_valid_uri (value : String) : Bool :=
  match value.data with
  | [] => false
  | c :: rest => c.isAlpha && uriScanScheme rest

/-- Characters allowed in the local part of an email
(`[a-zA-Z0-9._%+-]`). -/
def emailLocalChar (c : Char) : Bool :=
  c.isAlphanum || c == '.' || c == '_' || c == '%' || c == '+' || c == '-'

/-- Characters allowed in the domain of an email (`[a-zA-Z0-9.-]`). -/
def emailDomainChar (c : Char) : Bool :=
  c.isAlphanum || c == '.' || c == '-'

/-- Domain-and-TLD check of the email pattern
`[a-zA-Z0-9.-]+\.[a-zA-Z]\x7b2,\x7d$`: since the TLD is all-alphabetic and
runs to the end, the separating dot is necessarily the last dot. -/
def emailDomain (cs : List Char) : Bool :=
  let rev := cs.reverse
  let tld := rev.takeWhile Char.isAlpha
  decide (2 ≤ tld.length) &&
    (match rev.drop tld.length with
     | '.' :: domRev => !domRev.isEmpty && domRev.all emailDomainChar
     | _ => false)

/-- Local-part scan of `_is_valid_email` after the first character:
consume local characters until the `@`. -/
def emailLocalScan : List Char → Bool
  | [] => false
  | c :: rest => if c == '@' then emailDomain rest else emailLocalChar c && emailLocalScan rest

/-- Embedding of `_is_valid_email`: the source pattern
`^[a-zA-Z0-9._%+-]+@[a-zA-Z0-9.-]+\.[a-zA-Z]\x7b2,\x7d$`. -/
def _is_valid_email (value : String) : Bool :=
  match value.data with
  | [] => false
  | c :: rest => emailLocalChar c && emailLocalScan rest

/-- Embedding of `_validate_string(value, schema, field_name)`. -/
def _validate_string (value : String) (schema : Value) (field_name : String) :
    Except String (List String) := do
  let mut errors : List String := []
  let hasMin ← pyContains schema (.str "minLength")
  if hasMin then
    let m ← pyGetItem schema "minLength"
    let lt ← pyLtNum value.length m
    if lt then
      errors := errors ++
        ["Field \x27" ++ field_name ++ "\x27 must be at least " ++ pyStr m ++ " characters long"]
  let hasMax ← pyContains schema (.str "maxLength")
  if hasMax then
    let m ← pyGetItem schema "maxLength"
    let gt ← pyGtNum value.length m
    if gt then
      errors := errors ++
        ["Field \x27" ++ field_name ++ "\x27 must be at most " ++ pyStr m ++ " characters long"]
  let hasPat ← pyContains schema (.str "pattern")
  if hasPat then
    let p ← pyGetItem schema "pattern"
    match p with
    | .str pat =>
      if !reMatch pat value then
        errors := errors ++ ["Field \x27" ++ field_name ++ "\x27 does not match required pattern"]
    | v => throw ("first argument must be string or compiled pattern, not " ++ typeName v)
  let hasFmt ← pyContains schema (.str "format")
  if hasFmt then
    let f ← pyGetItem schema "format"
    if pyEq f (.str "uri") then
      if !_is_valid_uri value then
        errors := errors ++ ["Field \x27" ++ field_name ++ "\x27 must be a valid URI"]
    else if pyEq f (.str "email") then
      if !_is_valid_email value then
        errors := errors ++ ["Field \x27" ++ field_name ++ "\x27 must be a valid email address"]
  pure errors

/-- Embedding of `_validate_number(value, schema, field_name)`; `value` is
the numeric view of the supplied int/bool (floats are outside the model). -/
def _validate_number (value : Int) (schema : Value) (field_name : String) :
    Except String (List String) := do
  let mut errors : List String := []
  let hasMin ← pyContains schema (.str "minimum")
  if hasMin then
    let m ← pyGetItem schema "minimum"
    let lt ← pyLtNum value m
    if lt then
      errors := errors ++ ["Field \x27" ++ field_name ++ "\x27 must be at least " ++ pyStr m]
  let hasMax ← pyContains schema (.str "maximum")
  if hasMax then
    let m ← pyGetItem schema "maximum"
    let gt ← pyGtNum value m
    if gt then
      errors := errors ++ ["Field \x27" ++ field_name ++ "\x27 must be at most " ++ pyStr m]
  let hasEMin ← pyContains schema (.str "exclusiveMinimum")
  if hasEMin then
    let m ← pyGetItem schema "exclusiveMinimum"
    let le ← pyLeNum value m
    if le then
      errors := errors ++ ["Field \x27" ++ field_name ++ "\x27 must be greater than " ++ pyStr m]
  let hasEMax ← pyContains schema (.str "exclusiveMaximum")
  if hasEMax then
    let m ← pyGetItem schema "exclusiveMaximum"
    let ge ← pyGeNum value m
    if ge then
      errors := errors ++ ["Field \x27" ++ field_name ++ "\x27 must be less than " ++ pyStr m]
  let hasMul ← pyContains schema (.str "multipleOf")
  if hasMul then
    let m ← pyGetItem schema "multipleOf"
    let nz ← pyModNonzero value m
    if nz then
      errors := errors ++ ["Field \x27" ++ field_name ++ "\x27 must be a multiple of " ++ pyStr m]
  pure errors

mutual

/-- Embedding of `_validate_field(value, field_schema, field_name)`:
null handling, then the type check (emitting a single message and
returning early on mismatch), then the per-runtime-type constraint checks,
then the unconditional-on-declaration enum check. -/
def _validate_field (value : Value) (field_schema : Value) (field_name : String) :
    Except String (List String) :=
  match value with
  | .null => do
    let t ← pyGet field_schema "type" (.list [])
    let b ← pyContains t (.str "null")
    if !b then pure ["Field \x27" ++ field_name ++ "\x27 cannot be null"] else pure []
  | v => do
    let t ← pyGet field_schema "type" .null
    if truthy t then
      let ok ← _validate_type v (wrapType t)
      if !ok then
        return ["Field \x27" ++ field_name ++ "\x27 must be of type " ++ pyStr (wrapType t) ++
          ", got " ++ typeName v]
    let branchErrs ← _validate_branch v field_schema field_name
    let hasEnum ← pyContains field_schema (.str "enum")
    if hasEnum then
      let en ← pyGetItem field_schema "enum"
      let mem ← pyContains en v
      if !mem then
        pure (branchErrs ++ ["Field \x27" ++ field_name ++ "\x27 must be one of " ++ pyStr en ++
          ", got \x27" ++ pyStr v ++ "\x27"])
      else pure branchErrs
    else pure branchErrs

/-- The `isinstance` dispatch chain in the middle of `_validate_field`:
strings, then numbers (a bool is an `int` instance, with numeric value 0/1),
then arrays, then objects. -/
def _validate_branch (v : Value) (field_schema : Value) (field_name : String) :
    Except String (List String) :=
  match v with
  | .str s => _validate_string s field_schema field_name
  | .int n => _validate_number n field_schema field_name
  | .bool b => _validate_number (if b then 1 else 0) field_schema field_name
  | .list items => _validate_array items field_schema field_name
  | .dict entries => _validate_object entries field_schema field_name
  | .null => pure []

/-- Embedding of `_validate_array(value, schema, field_name)`. -/
def _validate_array (value : List Value) (schema : Value) (field_name : String) :
    Except String (List String) := do
  let mut errors : List String := []
  let hasMin ← pyContains schema (.str "minItems")
  if hasMin then
    let m ← pyGetItem schema "minItems"
    let lt ← pyLtNum value.length m
    if lt then
      errors := errors ++
        ["Field \x27" ++ field_name ++ "\x27 must have at least " ++ pyStr m ++ " items"]
  let hasMax ← pyContains schema (.str "maxItems")
  if hasMax then
    let m ← pyGetItem schema "maxItems"
    let gt ← pyGtNum value.length m
    if gt then
      errors := errors ++
        ["Field \x27" ++ field_name ++ "\x27 must have at most " ++ pyStr m ++ " items"]
  let hasItems ← pyContains schema (.str "items")
  if hasItems then
    let item_schema ← pyGetItem schema "items"
    let itemErrs ← _validate_items value item_schema field_name 0
    errors := errors ++ itemErrs
  let uniq ← pyGet schema "uniqueItems" (.bool false)
  if truthy uniq then
    if (value.map pyStr).dedup.length ≠ value.length then
      errors := errors ++ ["Field \x27" ++ field_name ++ "\x27 must contain unique items"]
  pure errors

/-- The `enumerate(value)` loop of `_validate_array`: validate each element
against the item schema under the indexed label `name[i]`. -/
def _validate_items (items : List Value) (item_schema : Value) (field_name : String) (i : Nat) :
    Except String (List String) :=
  match items with
  | [] => pure []
  | item :: rest => do
    let itemErrs ← _validate_field item item_schema (field_name ++ "[" ++ toString i ++ "]")
    let restErrs ← _validate_items rest item_schema field_name (i + 1)
    pure (itemErrs ++ restErrs)

/-- Embedding of `_validate_object(value, schema, field_name)`. -/
def _validate_object (value : List (String × Value)) (schema : Value) (field_name : String) :
    Except String (List String) := do
  let mut errors : List String := []
  let hasMin ← pyContains schema (.str "minProperties")
  if hasMin then
    let m ← pyGetItem schema "minProperties"
    let lt ← pyLtNum value.length m
    if lt then
      errors := errors ++
        ["Field \x27" ++ field_name ++ "\x27 must have at least " ++ pyStr m ++ " properties"]
  let hasMax ← pyContains schema (.str "maxProperties")
  if hasMax then
    let m ← pyGetItem schema "maxProperties"
    let gt ← pyGtNum value.length m
    if gt then
      errors := errors ++
        ["Field \x27" ++ field_name ++ "\x27 must have at most " ++ pyStr m ++ " properties"]
  let req ← pyGet schema "required" (.list [])
  let reqList ← pyIter req
  for prop in reqList do
    let present ← pyContains (.dict value) prop
    if !present then
      errors := errors ++ ["Field \x27" ++ field_name ++ "\x27 is missing required property \x27" ++
        pyStr prop ++ "\x27"]
  let properties ← pyGet schema "properties" (.dict [])
  let propErrs ← _validate_props value properties schema field_name
  pure (errors ++ propErrs)

/-- The `value.items()` loop of `_validate_object`: validate declared
properties recursively under dotted labels; flag undeclared ones only when
`additionalProperties` is declared falsy (nested default: accept). -/
def _validate_props (entries : List (String × Value)) (properties : Value) (schema : Value)
    (field_name : String) : Except String (List String) :=
  match entries with
  | [] => pure []
  | (prop_name, prop_value) :: rest => do
    let declared ← pyContains properties (.str prop_name)
    if declared then
      let prop_schema ← pyGetItem properties prop_name
      let propErrs ← _validate_field prop_value prop_schema (field_name ++ "." ++ prop_name)
      let restErrs ← _validate_props rest properties schema field_name
      pure (propErrs ++ restErrs)
    else
      let ap ← pyGet schema "additionalProperties" (.bool true)
      if !truthy ap then
        let restErrs ← _validate_props rest properties schema field_name
        pure (("Field \x27" ++ field_name ++ "\x27 has unexpected property \x27" ++ prop_name ++
          "\x27") :: restErrs)
      else
        _validate_props rest properties schema field_name

end

/-- The `required` loop of `validate_tool_arguments`: one missing-field
message per required name absent from the argument mapping. -/
def requiredLoop (reqList : List Value) (arguments : Value) : Except String (List String) :=
  match reqList with
  | [] => pure []
  | field :: rest => do
    let present ← pyContains arguments field
    let restErrs ← requiredLoop rest arguments
    if !present then
      pure (("Missing required field: \x27" ++ pyStr field ++ "\x27") :: restErrs)
    else
      pure restErrs

/-- The `arguments.items()` loop of `validate_tool_arguments`: a declared
field is validated by `_validate_field`; an undeclared one is flagged as
unknown unless `additionalProperties` is truthy (top-level default:
reject). -/
def argsLoop (items : List (String × Value)) (properties : Value) (schema : Value) :
    Except String (List String) :=
  match items with
  | [] => pure []
  | (field_name, value) :: rest => do
    let declared ← pyContains properties (.str field_name)
    if declared then
      let field_schema ← pyGetItem properties field_name
      let fieldErrs ← _validate_field value field_schema field_name
      let restErrs ← argsLoop rest properties schema
      pure (fieldErrs ++ restErrs)
    else
      let ap ← pyGet schema "additionalProperties" (.bool false)
      if !truthy ap then
        let restErrs ← argsLoop rest properties schema
        pure (("Unknown field: \x27" ++ field_name ++ "\x27") :: restErrs)
      else
        argsLoop rest properties schema

/-- Body of the `try` block of `validate_tool_arguments`: the
required-field pass, then the per-supplied-argument pass. -/
def validateBody (arguments : Value) (schema : Value) : Except String VResult := do
  let req ← pyGet schema "required" (.list [])
  let reqList ← pyIter req
  let reqErrs ← requiredLoop reqList arguments
  let properties ← pyGet schema "properties" (.dict [])
  let argItems ← pyItems arguments
  let argErrs ← argsLoop argItems properties schema
  let errors := reqErrs ++ argErrs
  pure ⟨errors.isEmpty, errors⟩

/-- Embedding of `validate_tool_arguments(arguments, schema)`: the `try`
body, with any internal exception converted to the single synthetic
`"Validation error: <message>"` entry. -/
def validate_tool_arguments (arguments : Value) (schema : Value) : VResult :=
  match validateBody arguments schema with
  | .ok r => r
  | .error e => ⟨false, ["Validation error: " ++ e]⟩

/-! ### Model of `json.dumps` / `json.loads`

`format_success_response` serializes envelope objects with `json.dumps`
and uses `json.loads` purely as a validity test on string results (the
parsed value is discarded there); the Lambda front-end also parses request
bodies and handler results.  The model below covers the integer-only,
whitespace-free JSON fragment (see the header note); `jsonDumps` is the
compact serializer and `jsonParse` the matching parser. -/

/-- Decimal digit for a value below ten. -/
def digitChar : Nat → Char
  | 0 => '0' | 1 => '1' | 2 => '2' | 3 => '3' | 4 => '4'
  | 5 => '5' | 6 => '6' | 7 => '7' | 8 => '8' | _ => '9'

/-- Numeric value of a decimal digit character. -/
def digitVal (c : Char) : Nat := c.toNat - 48

/-- Decimal rendering worker: the structural fuel strictly exceeds the
number being rendered, so the digit recursion never exhausts it. -/
def natToCharsAux : Nat → Nat → List Char
  | 0, _ => []
  | fuel + 1, n =>
    if n < 10 then [digitChar n]
    else natToCharsAux fuel (n / 10) ++ [digitChar (n % 10)]

/-- Decimal rendering of a natural number (most significant digit first),
as produced by Python `str`. -/
def natToChars (n : Nat) : List Char := natToCharsAux (n + 1) n

/-- Decimal rendering of an integer. -/
def intToChars (n : Int) : List Char :=
  if n < 0 then '-' :: natToChars n.natAbs else natToChars n.toNat

/-- JSON string escaping of `json.dumps`, modelled for the quote and
backslash (control-character and non-ASCII escaping is outside the model;
the envelope strings the theorems evaluate contain neither). -/
def jsonEscape : List Char → List Char
  | [] => []
  | c :: rest =>
    if c = '"' then '\\' :: '"' :: jsonEscape rest
    else if c = '\\' then '\\' :: '\\' :: jsonEscape rest
    else c :: jsonEscape rest

mutual

/-- Characters of the compact JSON rendering of a value. -/
def dumpChars : Value → List Char
  | .null => "null".data
  | .bool true => "true".data
  | .bool false => "false".data
  | .int n => intToChars n
  | .str s => '"' :: (jsonEscape s.data ++ ['"'])
  | .list l => '[' :: (dumpList l ++ [']'])
  | .dict d => '\x7b' :: (dumpEntries d ++ ['\x7d'])

/-- Comma-joined renderings of list elements. -/
def dumpList : List Value → List Char
  | [] => []
  | [v] => dumpChars v
  | v :: rest => dumpChars v ++ ',' :: dumpList rest

/-- Comma-joined renderings of object entries (each one rendered as
quoted key, colon, value; see `dumpKV`). -/
def dumpEntries : List (String × Value) → List Char
  | [] => []
  | [(k, v)] => '"' :: (jsonEscape k.data ++ '"' :: ':' :: dumpChars v)
  | (k, v) :: rest =>
    ('"' :: (jsonEscape k.data ++ '"' :: ':' :: dumpChars v)) ++ ',' :: dumpEntries rest

end

/-- Rendering of a single key/value pair. -/
def dumpKV (k : String) (v : Value) : List Char :=
  '"' :: (jsonEscape k.data ++ '"' :: ':' :: dumpChars v)

/-- Model of `json.dumps(v)` (indentation whitespace elided; see header). -/
def jsonDumps (v : Value) : String := ⟨dumpChars v⟩

/-- Expect a literal run of characters, returning the remainder. -/
def expectRun : List Char → List Char → Option (List Char)
  | [], cs => some cs
  | p :: ps, c :: cs => if c = p then expectRun ps cs else none
  | _ :: _, [] => none

/-- Unescaping map for JSON string escapes: the three self-escapes, then
the named control escapes. -/
def escChar (e : Char) : Option Char :=
  if e = '"' || e = '\\' || e = '/' then some e
  else if e = 'n' then some '\n'
  else if e = 't' then some '\t'
  else if e = 'r' then some '\x0d'
  else if e = 'b' then some '\x08'
  else if e = 'f' then some '\x0c'
  else none

/-- Parse the body of a JSON string after the opening quote, returning the
content and the remainder after the closing quote. -/
def parseStr : List Char → Option (List Char × List Char)
  | [] => none
  | c :: rest =>
    if c = '"' then some ([], rest)
    else if c = '\\' then
      match rest with
      | [] => none
      | e :: rest2 =>
        match escChar e with
        | some d => (parseStr rest2).map fun p => (d :: p.1, p.2)
        | none => none
    else (parseStr rest).map fun p => (c :: p.1, p.2)

/-- Numeric value of a digit run (most significant first). -/
def natFromDigits (ds : List Char) : Nat :=
  ds.foldl (fun a c => a * 10 + digitVal c) 0

/-- Parse a nonempty run of decimal digits. -/
def parseDigits (cs : List Char) : Option (Nat × List Char) :=
  let ds := cs.takeWhile Char.isDigit
  if ds.isEmpty then none
  else some (natFromDigits ds, cs.drop ds.length)

mutual

/-- Parse one JSON value; the fuel bounds recursion depth and is sized
generously by `jsonParse`. -/
def parseVal : Nat → List Char → Option (Value × List Char)
  | 0, _ => none
  | _ + 1, [] => none
  | fuel + 1, c :: rest =>
    if c = 'n' then (expectRun ['u', 'l', 'l'] rest).map fun r => (.null, r)
    else if c = 't' then (expectRun ['r', 'u', 'e'] rest).map fun r => (.bool true, r)
    else if c = 'f' then (expectRun ['a', 'l', 's', 'e'] rest).map fun r => (.bool false, r)
    else if c = '"' then (parseStr rest).map fun p => (.str ⟨p.1⟩, p.2)
    else if c = '[' then
      match rest with
      | [] => none
      | c2 :: r2 =>
        if c2 = ']' then some (.list [], r2)
        else (parseArrItems fuel (c2 :: r2)).map fun p => (.list p.1, p.2)
    else if c = '\x7b' then
      match rest with
      | [] => none
      | c2 :: r2 =>
        if c2 = '\x7d' then some (.dict [], r2)
        else (parseObjItems fuel (c2 :: r2)).map fun p => (.dict p.1, p.2)
    else if c = '-' then (parseDigits rest).map fun p => (.int (-(p.1 : Int)), p.2)
    else if c.isDigit then (parseDigits (c :: rest)).map fun p => (.int (p.1 : Int), p.2)
    else none

/-- Parse the comma-separated elements of a nonempty array up to `]`. -/
def parseArrItems : Nat → List Char → Option (List Value × List Char)
  | 0, _ => none
  | fuel + 1, cs =>
    match parseVal fuel cs with
    | none => none
    | some (v, r1) =>
      match r1 with
      | [] => none
      | c :: r2 =>
        if c = ',' then (parseArrItems fuel r2).map fun p => (v :: p.1, p.2)
        else if c = ']' then some ([v], r2)
        else none

/-- Parse the comma-separated entries of a nonempty object up to the
closing brace. -/
def parseObjItems : Nat → List Char → Option (List (String × Value) × List Char)
  | 0, _ => none
  | fuel + 1, cs =>
    match cs with
    | [] => none
    | c :: rest =>
      if c = '"' then
        match parseStr rest with
        | none => none
        | some (k, r1) =>
          match r1 with
          | ':' :: r2 =>
            match parseVal fuel r2 with
            | none => none
            | some (v, r3) =>
              match r3 with
              | [] => none
              | c3 :: r4 =>
                if c3 = ',' then
                  (parseObjItems fuel r4).map fun p => ((⟨k⟩, v) :: p.1, p.2)
                else if c3 = '\x7d' then some ([(⟨k⟩, v)], r4)
                else none
          | _ => none
      else none

end

/-- Model of `json.loads(s)` for the modelled fragment: parse one value
and require the input to be fully consumed.  The fuel `2·|s| + 2` exceeds
the recursion depth of any parse of `s`. -/
def jsonParse (s : String) : Option Value :=
  match parseVal (2 * s.length + 2) s.data with
  | some (v, []) => some v
  | _ => none

/-! ### Parser/serializer roundtrip

`format_success_response` relies on its own output being accepted by
`json.loads`; the lemmas below establish `jsonParse (jsonDumps v) = some v`
for the model. -/

/-- Decimal value of the digit characters. -/
theorem digitVal_digitChar (k : Nat) (h : k < 10) : digitVal (digitChar k) = k := by
  interval_cases k <;> rfl

/-- Digit characters are digits. -/
theorem isDigit_digitChar (k : Nat) (h : k < 10) : (digitChar k).isDigit = true := by
  interval_cases k <;> rfl

/-- Every character produced by the rendering worker is a digit. -/
theorem natToCharsAux_digits :
    ∀ (fuel n : Nat), n < fuel → ∀ c ∈ natToCharsAux fuel n, c.isDigit = true := by
  intro fuel
  induction fuel with
  | zero => intro n h; omega
  | succ f ih =>
    intro n h c hc
    rw [natToCharsAux] at hc
    split at hc
    · rw [List.mem_singleton] at hc
      subst hc
      exact isDigit_digitChar n (by omega)
    · rw [List.mem_append] at hc
      rcases hc with hc | hc
      · exact ih (n / 10) (by omega) c hc
      · rw [List.mem_singleton] at hc
        subst hc
        exact isDigit_digitChar (n % 10) (Nat.mod_lt _ (by omega))

/-- Every character of a decimal rendering is a digit. -/
theorem natToChars_digits (n : Nat) : ∀ c ∈ natToChars n, c.isDigit = true :=
  natToCharsAux_digits (n + 1) n (by omega)

/-- Renderings by the worker are nonempty on adequate fuel. -/
theorem natToCharsAux_ne_nil (fuel n : Nat) (h : n < fuel) : natToCharsAux fuel n ≠ [] := by
  cases fuel with
  | zero => omega
  | succ f =>
    rw [natToCharsAux]
    split
    · simp
    · simp

/-- Decimal renderings are nonempty. -/
theorem natToChars_ne_nil (n : Nat) : natToChars n ≠ [] :=
  natToCharsAux_ne_nil (n + 1) n (by omega)

/-- Value of a digit string extended by one digit. -/
theorem natFromDigits_append (xs : List Char) (c : Char) :
    natFromDigits (xs ++ [c]) = natFromDigits xs * 10 + digitVal c := by
  simp [natFromDigits, List.foldl_append]

/-- Reading back a worker rendering recovers the number. -/
theorem natFromDigits_natToCharsAux :
    ∀ (fuel n : Nat), n < fuel → natFromDigits (natToCharsAux fuel n) = n := by
  intro fuel
  induction fuel with
  | zero => intro n h; omega
  | succ f ih =>
    intro n h
    rw [natToCharsAux]
    split
    · rename_i hlt
      simp [natFromDigits]
      exact digitVal_digitChar n hlt
    · rename_i hge
      rw [natFromDigits_append, ih (n / 10) (by omega),
        digitVal_digitChar (n % 10) (Nat.mod_lt _ (by omega))]
      omega

/-- Reading back a decimal rendering recovers the number. -/
theorem natFromDigits_natToChars (n : Nat) : natFromDigits (natToChars n) = n :=
  natFromDigits_natToCharsAux (n + 1) n (by omega)

/-- The input ahead of the parser does not begin with a digit (so that a
digit run just parsed cannot absorb it). -/
def noDigitHead : List Char → Prop
  | [] => True
  | c :: _ => c.isDigit = false

/-- A `takeWhile` scan passes over a block of satisfying characters. -/
theorem takeWhile_append_of_all (p : Char → Bool) (xs ys : List Char)
    (h : ∀ c ∈ xs, p c = true) :
    (xs ++ ys).takeWhile p = xs ++ ys.takeWhile p := by
  induction xs with
  | nil => simp
  | cons c cs ih =>
    have hc := h c (by simp)
    simp [List.takeWhile_cons, hc, ih (fun d hd => h d (by simp [hd]))]

/-- A `takeWhile` scan stops immediately at a failing head. -/
theorem takeWhile_isDigit_eq_nil (ys : List Char) (h : noDigitHead ys) :
    ys.takeWhile Char.isDigit = [] := by
  cases ys with
  | nil => rfl
  | cons c cs => simp [List.takeWhile_cons, noDigitHead] at h ⊢; simp [h]

/-- Parsing the decimal rendering of `n` recovers `n` and the remainder. -/
theorem parseDigits_natToChars (n : Nat) (rest : List Char) (hrest : noDigitHead rest) :
    parseDigits (natToChars n ++ rest) = some (n, rest) := by
  simp only [parseDigits]
  rw [takeWhile_append_of_all _ _ _ (natToChars_digits n), takeWhile_isDigit_eq_nil rest hrest,
    List.append_nil]
  rw [if_neg (by simp [natToChars_ne_nil n])]
  rw [natFromDigits_natToChars, List.drop_left]

/-- Parsing an escaped string body up to the closing quote recovers the
original characters and the remainder. -/
theorem parseStr_jsonEscape (s rest : List Char) :
    parseStr (jsonEscape s ++ ('"' :: rest)) = some (s, rest) := by
  induction s with
  | nil =>
    rw [jsonEscape, List.nil_append, parseStr.eq_def]
    simp
  | cons c cs ih =>
    by_cases h1 : c = '"'
    · subst h1
      rw [jsonEscape]
      simp only [if_pos rfl, List.cons_append]
      rw [parseStr.eq_def]
      simp [escChar, ih]
    · by_cases h2 : c = '\\'
      · subst h2
        rw [show jsonEscape ('\\' :: cs) = '\\' :: '\\' :: jsonEscape cs from by
          rw [jsonEscape]; rfl]
        simp only [List.cons_append]
        rw [parseStr.eq_def]
        simp [escChar, ih]
      · rw [jsonEscape]
        simp only [if_neg h1, if_neg h2, List.cons_append]
        rw [parseStr.eq_def]
        simp [h1, h2, ih]

mutual

/-- Fuel sufficient for `parseVal` to parse the rendering of a value. -/
def needFuel : Value → Nat
  | .list vs => 1 + needArr vs
  | .dict es => 1 + needObj es
  | _ => 1

/-- Fuel sufficient for `parseArrItems` over rendered elements. -/
def needArr : List Value → Nat
  | [] => 1
  | v :: rest => 1 + needFuel v + needArr rest

/-- Fuel sufficient for `parseObjItems` over rendered entries. -/
def needObj : List (String × Value) → Nat
  | [] => 1
  | (_, v) :: rest => 1 + needFuel v + needObj rest

end

/-- Fuel requirements are positive. -/
theorem needFuel_pos (v : Value) : 1 ≤ needFuel v := by
  cases v <;> simp [needFuel]

/-- Array fuel requirements are positive. -/
theorem needArr_pos (vs : List Value) : 1 ≤ needArr vs := by
  cases vs with
  | nil => simp [needArr]
  | cons v rest => simp only [needArr]; omega

/-- Object fuel requirements are positive. -/
theorem needObj_pos (es : List (String × Value)) : 1 ≤ needObj es := by
  cases es with
  | nil => simp [needObj]
  | cons e rest => cases e; simp only [needObj]; omega

/-- Rendering equation: null. -/
theorem dumpChars_null : dumpChars .null = ['n', 'u', 'l', 'l'] := by
  rw [dumpChars.eq_def]

/-- Rendering equation: true. -/
theorem dumpChars_true : dumpChars (.bool true) = ['t', 'r', 'u', 'e'] := by
  rw [dumpChars.eq_def]

/-- Rendering equation: false. -/
theorem dumpChars_false : dumpChars (.bool false) = ['f', 'a', 'l', 's', 'e'] := by
  rw [dumpChars.eq_def]

/-- Rendering equation: integers. -/
theorem dumpChars_int (n : Int) : dumpChars (.int n) = intToChars n := by
  rw [dumpChars.eq_def]

/-- Rendering equation: strings. -/
theorem dumpChars_str (s : String) :
    dumpChars (.str s) = '"' :: (jsonEscape s.data ++ ['"']) := by
  rw [dumpChars.eq_def]

/-- Rendering equation: lists. -/
theorem dumpChars_list (l : List Value) :
    dumpChars (.list l) = '[' :: (dumpList l ++ [']']) := by
  rw [dumpChars.eq_def]

/-- Rendering equation: dicts. -/
theorem dumpChars_dict (d : List (String × Value)) :
    dumpChars (.dict d) = '\x7b' :: (dumpEntries d ++ ['\x7d']) := by
  rw [dumpChars.eq_def]

/-- Rendering equation: empty element list. -/
theorem dumpList_nil : dumpList [] = [] := by
  rw [dumpList.eq_def]

/-- Rendering equation: final element. -/
theorem dumpList_singleton (v : Value) : dumpList [v] = dumpChars v := by
  rw [dumpList.eq_def]

/-- Rendering equation: element followed by more elements. -/
theorem dumpList_cons₂ (v w : Value) (vs : List Value) :
    dumpList (v :: w :: vs) = dumpChars v ++ ',' :: dumpList (w :: vs) := by
  rw [dumpList.eq_def]

/-- Rendering equation: empty entry list. -/
theorem dumpEntries_nil : dumpEntries [] = [] := by
  rw [dumpEntries.eq_def]

/-- Rendering equation: final entry. -/
theorem dumpEntries_singleton (k : String) (v : Value) :
    dumpEntries [(k, v)] = dumpKV k v := by
  rw [dumpEntries.eq_def, dumpKV]

/-- Rendering equation: entry followed by more entries. -/
theorem dumpEntries_cons₂ (k : String) (v : Value) (e : String × Value)
    (es : List (String × Value)) :
    dumpEntries ((k, v) :: e :: es) = dumpKV k v ++ ',' :: dumpEntries (e :: es) := by
  rw [dumpEntries.eq_def, dumpKV]

/-- Rendering equation: one key/value pair. -/
theorem dumpKV_eq (k : String) (v : Value) :
    dumpKV k v = '"' :: (jsonEscape k.data ++ '"' :: ':' :: dumpChars v) := by
  rw [dumpKV.eq_def]

/-- Nonempty decimal rendering exposed as a cons with a digit head. -/
theorem natToChars_cons (n : Nat) :
    ∃ c cs, natToChars n = c :: cs ∧ c.isDigit = true := by
  cases h : natToChars n with
  | nil => exact absurd h (natToChars_ne_nil n)
  | cons c cs =>
    refine ⟨c, cs, rfl, ?_⟩
    have := natToChars_digits n c
    rw [h] at this
    exact this (by simp)

/-- Digit characters are none of the characters that select another
branch of `parseVal`. -/
theorem isDigit_ne (c : Char) (h : c.isDigit = true) :
    c ≠ 'n' ∧ c ≠ 't' ∧ c ≠ 'f' ∧ c ≠ '"' ∧ c ≠ '[' ∧ c ≠ '\x7b' ∧ c ≠ '-' := by
  refine ⟨?_, ?_, ?_, ?_, ?_, ?_, ?_⟩ <;> (intro he; subst he; revert h; decide)

/-- The first character of a rendering is never a closing delimiter or a
separator (so the parser's lookahead on a following element is decided
correctly). -/
theorem dumpChars_head_shape (v : Value) :
    ∃ c cs, dumpChars v = c :: cs ∧ c ≠ ']' ∧ c ≠ '\x7d' ∧ c ≠ ',' := by
  cases v with
  | null => exact ⟨'n', _, dumpChars_null, by decide, by decide, by decide⟩
  | bool b =>
    cases b
    · exact ⟨'f', _, dumpChars_false, by decide, by decide, by decide⟩
    · exact ⟨'t', _, dumpChars_true, by decide, by decide, by decide⟩
  | int n =>
    by_cases hn : n < 0
    · exact ⟨'-', natToChars n.natAbs, by rw [dumpChars_int]; simp [intToChars, hn],
        by decide, by decide, by decide⟩
    · obtain ⟨c, cs, hcons, hdig⟩ := natToChars_cons n.toNat
      refine ⟨c, cs, by rw [dumpChars_int]; simp [intToChars, hn, hcons], ?_, ?_, ?_⟩ <;>
        (intro he; subst he; revert hdig; decide)
  | str s => exact ⟨'"', _, dumpChars_str s, by decide, by decide, by decide⟩
  | list l => exact ⟨'[', _, dumpChars_list l, by decide, by decide, by decide⟩
  | dict d => exact ⟨'\x7b', _, dumpChars_dict d, by decide, by decide, by decide⟩

/-- Some tail completes the rendering of a nonempty list's first element. -/
theorem dumpList_cons_eq (v : Value) (vs : List Value) :
    ∃ t, dumpList (v :: vs) = dumpChars v ++ t := by
  cases vs with
  | nil => exact ⟨[], by rw [dumpList_singleton, List.append_nil]⟩
  | cons w ws => exact ⟨',' :: dumpList (w :: ws), dumpList_cons₂ v w ws⟩

/-- Nonempty entry renderings start with a quote. -/
theorem dumpEntries_cons_quote (k : String) (v : Value) (es : List (String × Value)) :
    ∃ t, dumpEntries ((k, v) :: es) = '"' :: t := by
  cases es with
  | nil =>
    exact ⟨jsonEscape k.data ++ '"' :: ':' :: dumpChars v, by rw [dumpEntries_singleton, dumpKV_eq]⟩
  | cons e2 es2 =>
    exact ⟨jsonEscape k.data ++ '"' :: ':' :: dumpChars v ++ ',' :: dumpEntries (e2 :: es2),
      by rw [dumpEntries_cons₂, dumpKV_eq]; simp⟩

/-- A cons whose head is not a digit satisfies `noDigitHead`. -/
theorem noDigitHead_cons (c : Char) (cs : List Char) (h : c.isDigit = false) :
    noDigitHead (c :: cs) := h

mutual

/-- Parsing the rendering of a value recovers the value and the trailing
input, given enough fuel and a non-digit lookahead. -/
theorem parseVal_dump (v : Value) (rest : List Char) (fuel : Nat)
    (hf : needFuel v ≤ fuel) (hrest : noDigitHead rest) :
    parseVal fuel (dumpChars v ++ rest) = some (v, rest) := by
  cases fuel with
  | zero => exact absurd hf (by have := needFuel_pos v; omega)
  | succ f =>
    cases v with
    | null =>
      rw [dumpChars_null, parseVal.eq_def]
      simp [expectRun]
    | bool b =>
      cases b
      · rw [dumpChars_false, parseVal.eq_def]
        simp [expectRun]
      · rw [dumpChars_true, parseVal.eq_def]
        simp [expectRun]
    | int n =>
      by_cases hn : n < 0
      · rw [dumpChars_int]
        rw [show intToChars n = '-' :: natToChars n.natAbs from by simp [intToChars, hn]]
        rw [parseVal.eq_def]
        simp only [List.cons_append]
        simp [parseDigits_natToChars n.natAbs rest hrest]
        rw [abs_of_neg hn]
        ring
      · rw [dumpChars_int]
        rw [show intToChars n = natToChars n.toNat from by simp [intToChars, hn]]
        obtain ⟨c, cs, hcons, hdig⟩ := natToChars_cons n.toNat
        obtain ⟨h1, h2, h3, h4, h5, h6, h7⟩ := isDigit_ne c hdig
        rw [hcons, List.cons_append, parseVal.eq_def]
        simp only [h1, h2, h3, h4, h5, h6, h7, if_neg, if_false, hdig, if_true]
        rw [show c :: (cs ++ rest) = natToChars n.toNat ++ rest from by rw [hcons]; simp]
        rw [parseDigits_natToChars _ _ hrest]
        simp
        omega
    | str s =>
      rw [dumpChars_str]
      rw [show ('"' :: (jsonEscape s.data ++ ['"'])) ++ rest
          = '"' :: (jsonEscape s.data ++ ('"' :: rest)) from by simp]
      rw [parseVal.eq_def]
      simp [parseStr_jsonEscape]
    | list l =>
      cases l with
      | nil =>
        rw [dumpChars_list, dumpList_nil, parseVal.eq_def]
        simp
      | cons v1 vs =>
        have harr : needArr (v1 :: vs) ≤ f := by
          rw [needFuel] at hf; omega
        have ih := parseArr_dump (v1 :: vs) rest f (by simp) harr
        rw [dumpChars_list]
        obtain ⟨t, ht⟩ := dumpList_cons_eq v1 vs
        obtain ⟨c, cs, hcons, hc1, hc2, hc3⟩ := dumpChars_head_shape v1
        rw [show ('[' :: (dumpList (v1 :: vs) ++ [']'])) ++ rest
            = '[' :: (dumpList (v1 :: vs) ++ (']' :: rest)) from by simp]
        have hshape : dumpList (v1 :: vs) ++ (']' :: rest) = c :: (cs ++ (t ++ (']' :: rest))) := by
          rw [ht, hcons]; simp
        rw [hshape, parseVal.eq_def]
        simp only [if_neg hc1, reduceIte]
        rw [← hshape, ih]
        simp
    | dict d =>
      cases d with
      | nil =>
        rw [dumpChars_dict, dumpEntries_nil, parseVal.eq_def]
        simp
      | cons e es =>
        have hobjf : needObj (e :: es) ≤ f := by
          rw [needFuel] at hf; omega
        have ih := parseObj_dump (e :: es) rest f (by simp) hobjf
        rw [dumpChars_dict]
        obtain ⟨k, v1⟩ := e
        obtain ⟨t, ht⟩ := dumpEntries_cons_quote k v1 es
        rw [show ('\x7b' :: (dumpEntries ((k, v1) :: es) ++ ['\x7d'])) ++ rest
            = '\x7b' :: (dumpEntries ((k, v1) :: es) ++ ('\x7d' :: rest)) from by simp]
        have hshape : dumpEntries ((k, v1) :: es) ++ ('\x7d' :: rest)
            = '"' :: (t ++ ('\x7d' :: rest)) := by
          rw [ht]; simp
        rw [hshape, parseVal.eq_def]
        simp only [reduceIte]
        rw [← hshape, ih]
        simp

/-- Parsing the rendered elements of a nonempty array up to `]` recovers
the elements and the trailing input. -/
theorem parseArr_dump (vs : List Value) (rest : List Char) (fuel : Nat)
    (hne : vs ≠ []) (hf : needArr vs ≤ fuel) :
    parseArrItems fuel (dumpList vs ++ (']' :: rest)) = some (vs, rest) := by
  cases fuel with
  | zero => exact absurd hf (by have := needArr_pos vs; omega)
  | succ f =>
    cases vs with
    | nil => exact absurd rfl hne
    | cons v1 vs1 =>
      cases vs1 with
      | nil =>
        have h1 : needFuel v1 ≤ f := by rw [needArr] at hf; omega
        have ihv := parseVal_dump v1 (']' :: rest) f h1
          (noDigitHead_cons _ _ (by decide))
        rw [dumpList_singleton, parseArrItems.eq_2, ihv]
        simp
      | cons w ws =>
        have h1 : needFuel v1 ≤ f := by rw [needArr] at hf; omega
        have h2 : needArr (w :: ws) ≤ f := by rw [needArr] at hf; omega
        have ihv := parseVal_dump v1 (',' :: (dumpList (w :: ws) ++ (']' :: rest))) f h1
          (noDigitHead_cons _ _ (by decide))
        have iharr := parseArr_dump (w :: ws) rest f (by simp) h2
        rw [dumpList_cons₂]
        rw [show (dumpChars v1 ++ ',' :: dumpList (w :: ws)) ++ (']' :: rest)
            = dumpChars v1 ++ (',' :: (dumpList (w :: ws) ++ (']' :: rest))) from by simp]
        rw [parseArrItems.eq_2, ihv]
        simp [iharr]

/-- Parsing the rendered entries of a nonempty object up to the closing
brace recovers the entries and the trailing input. -/
theorem parseObj_dump (es : List (String × Value)) (rest : List Char) (fuel : Nat)
    (hne : es ≠ []) (hf : needObj es ≤ fuel) :
    parseObjItems fuel (dumpEntries es ++ ('\x7d' :: rest)) = some (es, rest) := by
  cases fuel with
  | zero => exact absurd hf (by have := needObj_pos es; omega)
  | succ f =>
    cases es with
    | nil => exact absurd rfl hne
    | cons e1 es1 =>
      obtain ⟨k, v⟩ := e1
      cases es1 with
      | nil =>
        have h1 : needFuel v ≤ f := by rw [needObj] at hf; omega
        have ihv := parseVal_dump v ('\x7d' :: rest) f h1
          (noDigitHead_cons _ _ (by decide))
        rw [dumpEntries_singleton, dumpKV_eq]
        rw [show ('"' :: (jsonEscape k.data ++ '"' :: ':' :: dumpChars v)) ++ ('\x7d' :: rest)
            = '"' :: (jsonEscape k.data ++ ('"' :: (':' :: (dumpChars v ++ ('\x7d' :: rest)))))
            from by simp]
        rw [parseObjItems.eq_3]
        simp only [reduceIte]
        rw [parseStr_jsonEscape]
        simp only [ihv]
        rfl
      | cons e2 es2 =>
        have h1 : needFuel v ≤ f := by rw [needObj] at hf; omega
        have h2 : needObj (e2 :: es2) ≤ f := by rw [needObj] at hf; omega
        have ihv := parseVal_dump v
          (',' :: (dumpEntries (e2 :: es2) ++ ('\x7d' :: rest))) f h1
          (noDigitHead_cons _ _ (by decide))
        have ihobj := parseObj_dump (e2 :: es2) rest f (by simp) h2
        rw [dumpEntries_cons₂, dumpKV_eq]
        rw [show ('"' :: (jsonEscape k.data ++ '"' :: ':' :: dumpChars v)
              ++ ',' :: dumpEntries (e2 :: es2)) ++ ('\x7d' :: rest)
            = '"' :: (jsonEscape k.data ++ ('"' :: (':' :: (dumpChars v
              ++ (',' :: (dumpEntries (e2 :: es2) ++ ('\x7d' :: rest))))))) from by simp]
        rw [parseObjItems.eq_3]
        simp only [reduceIte]
        rw [parseStr_jsonEscape]
        simp only [ihv]
        simp only [reduceIte, ihobj]
        rfl

end

/-- Integer renderings are nonempty. -/
theorem intToChars_length_pos (n : Int) : 1 ≤ (intToChars n).length := by
  unfold intToChars
  split
  · simp
  · have := natToChars_ne_nil n.toNat
    cases h : natToChars n.toNat with
    | nil => exact absurd h this
    | cons c cs => simp [h]

mutual

/-- The fuel requirement of a value is dominated by its rendering length. -/
theorem needFuel_le (v : Value) : needFuel v ≤ 2 * (dumpChars v).length := by
  cases v with
  | null => rw [dumpChars_null]; simp [needFuel]
  | bool b =>
    cases b
    · rw [dumpChars_false]; simp [needFuel]
    · rw [dumpChars_true]; simp [needFuel]
  | int n =>
    rw [dumpChars_int]
    have := intToChars_length_pos n
    simp only [needFuel]
    omega
  | str s =>
    rw [dumpChars_str]
    simp only [needFuel, List.length_cons]
    omega
  | list l =>
    rw [dumpChars_list]
    have := needArr_le l
    simp only [needFuel, List.length_cons, List.length_append, List.length_singleton]
    omega
  | dict d =>
    rw [dumpChars_dict]
    have := needObj_le d
    simp only [needFuel, List.length_cons, List.length_append, List.length_singleton]
    omega

/-- The fuel requirement of elements is dominated by their rendering. -/
theorem needArr_le (vs : List Value) : needArr vs ≤ 2 * (dumpList vs).length + 2 := by
  cases vs with
  | nil => rw [dumpList_nil]; simp [needArr]
  | cons v1 vs1 =>
    cases vs1 with
    | nil =>
      rw [dumpList_singleton]
      have h1 := needFuel_le v1
      simp only [needArr]
      omega
    | cons w ws =>
      rw [dumpList_cons₂]
      have h1 := needFuel_le v1
      have h2 := needArr_le (w :: ws)
      have hh : needArr (v1 :: w :: ws) = 1 + needFuel v1 + needArr (w :: ws) := by
        rw [needArr]
      rw [hh]
      simp only [List.length_append, List.length_cons]
      omega

/-- The fuel requirement of entries is dominated by their rendering. -/
theorem needObj_le (es : List (String × Value)) : needObj es ≤ 2 * (dumpEntries es).length + 2 := by
  cases es with
  | nil => rw [dumpEntries_nil]; simp [needObj]
  | cons e1 es1 =>
    obtain ⟨k, v⟩ := e1
    cases es1 with
    | nil =>
      rw [dumpEntries_singleton, dumpKV_eq]
      have h1 := needFuel_le v
      simp only [needObj, List.length_cons, List.length_append]
      omega
    | cons e2 es2 =>
      rw [dumpEntries_cons₂, dumpKV_eq]
      have h1 := needFuel_le v
      have h2 := needObj_le (e2 :: es2)
      have hh : needObj ((k, v) :: e2 :: es2) = 1 + needFuel v + needObj (e2 :: es2) := by
        rw [needObj]
      rw [hh]
      simp only [List.length_cons, List.length_append]
      omega

end

/-- The serializer's output is accepted (and inverted) by the parser: the
model of `json.loads` applied to the model of `json.dumps` yields the
original value. -/
theorem jsonParse_jsonDumps (v : Value) : jsonParse (jsonDumps v) = some v := by
  have h := parseVal_dump v [] (2 * (dumpChars v).length + 2)
    (le_trans (needFuel_le v) (by omega)) trivial
  rw [List.append_nil] at h
  unfold jsonParse jsonDumps
  rw [show (⟨dumpChars v⟩ : String).length = (dumpChars v).length from rfl,
    show (⟨dumpChars v⟩ : String).data = dumpChars v from rfl, h]

/-! ### The response formatter (`src/utils/formatting.py`)

Every formatter takes a `ts` parameter standing for the reading of
`datetime.utcnow().isoformat()` at the call (the code appends `"Z"`).
`format_error_response` is modelled at its call sites' type: every caller
in the dispatchers passes a message string (never an exception object) and
leaves `include_traceback` at its default `False`, so the error type tag
is the constant `"Error"`.  The outermost `try/except` fallbacks of both
formatters guard `json.dumps` failures on unserializable objects, which
cannot arise for modelled values, and are therefore not reachable in the
model. -/

/-- Embedding of `format_error_response(error)` for string inputs. -/
def format_error_response (error : String) (ts : String) : String :=
  jsonDumps (.dict [("status", .str "error"),
    ("error", .dict [("type", .str "Error"), ("message", .str error)]),
    ("timestamp", .str (ts ++ "Z"))])

/-- Embedding of `format_success_response(result)`: validated-JSON strings
and status-carrying dicts pass through, lists gain a `count`, everything
else is wrapped in a success envelope. -/
def format_success_response (result : Value) (ts : String) : String :=
  match result with
  | .str s =>
    if (jsonParse s).isSome then s
    else
      jsonDumps (.dict [("status", .str "success"), ("data", .str s),
        ("timestamp", .str (ts ++ "Z"))])
  | .dict d =>
    if hasKey "status" d then jsonDumps (.dict d)
    else
      jsonDumps (.dict [("status", .str "success"), ("data", .dict d),
        ("timestamp", .str (ts ++ "Z"))])
  | .list l =>
    jsonDumps (.dict [("status", .str "success"), ("data", .list l),
      ("count", .int l.length), ("timestamp", .str (ts ++ "Z"))])
  | v =>
    jsonDumps (.dict [("status", .str "success"), ("data", v),
      ("timestamp", .str (ts ++ "Z"))])

/-! ### The MCP dispatcher (`handle_call_tool` in `src/main.py`)

The handler chain (`_route_tool_call` together with the per-category
handler objects, which perform network and file I/O) is abstracted as a
`route` function returning `Except String Value`: a `.error` is a raised
exception with the given message (including the `ValueError` for a tool
present in the catalog but absent from the if/elif chain).  The `try`
of `handle_call_tool` catches exactly the modelled raise points: the
`schema["inputSchema"]` subscript and the routed call.  Logging is
effect-free and elided. -/

/-- One `TextContent(type="text", text=...)` item of the MCP response. -/
structure TextContent where
  type : String
  text : String
deriving DecidableEq, Repr

/-- The `arguments or \x7b\x7d` default of `handle_call_tool`: a missing
or falsy argument value becomes the empty mapping. -/
def argOrEmpty : Option Value → Value
  | none => .dict []
  | some v => if truthy v then v else .dict []

/-- Embedding of `handle_call_tool(name, arguments)` over a schema catalog
and an abstract handler chain. -/
def handle_call_tool (tool_schemas : List (String × Value))
    (route : String → Value → Except String Value)
    (name : String) (arguments : Option Value) (ts : String) : List TextContent :=
  let args : Value := argOrEmpty arguments
  match getKey name tool_schemas with
  | none => [⟨"text", format_error_response ("Unknown tool: " ++ name) ts⟩]
  | some schema =>
    match pyGetItem schema "inputSchema" with
    | .error e =>
      [⟨"text", format_error_response ("Error executing tool " ++ name ++ ": " ++ e) ts⟩]
    | .ok inputSchema =>
      let validation_result := validate_tool_arguments args inputSchema
      if !validation_result.valid then
        [⟨"text", format_error_response
          ("Invalid arguments: " ++ pyStr (.list (validation_result.errors.map .str))) ts⟩]
      else
        match route name args with
        | .ok result => [⟨"text", format_success_response result ts⟩]
        | .error e =>
          [⟨"text", format_error_response ("Error executing tool " ++ name ++ ": " ++ e) ts⟩]

/-! ### The HTTP dispatcher (`tool_executor_handler` in
`src/aws-deployment/src/lambda_handlers.py`)

API-Gateway event plumbing is abstracted to its extracted inputs: the
path parameter (`tool_name`, `none` when absent), the request body value
(a `.str` body is JSON-parsed as in the source), the result of
`extract_project_id`, and the Lambda context fields.  The handler chain is
the same abstract `route` as above (`route_and_execute_tool`). -/

/-- API Gateway response triple produced by `create_response`. -/
structure HttpResponse where
  statusCode : Int
  headers : List (String × String)
  body : String
deriving DecidableEq, Repr

/-- Python item assignment on a string-valued header dict. -/
def setKeyStr (k v : String) : List (String × String) → List (String × String)
  | [] => [(k, v)]
  | (k2, w) :: rest => if k2 = k then (k2, v) :: rest else (k2, w) :: setKeyStr k v rest

/-- Python `dict.update` on the header dict: existing keys keep their
position, new keys are appended. -/
def updateHeaders (base : List (String × String)) : List (String × String) → List (String × String)
  | [] => base
  | (k, v) :: rest => updateHeaders (setKeyStr k v base) rest

/-- The `default_headers` literal of `create_response`. -/
def default_headers : List (String × String) :=
  [("Content-Type", "application/json"),
   ("Access-Control-Allow-Origin", "*"),
   ("Access-Control-Allow-Headers", "Content-Type,X-Amz-Date,Authorization,X-Api-Key,X-Amz-Security-Token"),
   ("Access-Control-Allow-Methods", "GET,POST,PUT,DELETE,OPTIONS")]

/-- Embedding of `create_response(status_code, body, headers)`. -/
def create_response (status_code : Int) (body : Value) (headers : List (String × String)) :
    HttpResponse :=
  { statusCode := status_code
    headers := updateHeaders default_headers headers
    body :=
      match body with
      | .str s => s
      | v => jsonDumps v }

/-- The 400 body for a missing or empty tool name. -/
def badRequestNameBody : Value :=
  .dict [("status", .str "error"),
    ("error", .dict [("type", .str "BadRequest"), ("message", .str "Tool name is required")])]

/-- The 400 body for an unparsable request body. -/
def badRequestJsonBody : Value :=
  .dict [("status", .str "error"),
    ("error", .dict [("type", .str "BadRequest"), ("message", .str "Invalid JSON in request body")])]

/-- The 404 body for a tool name missing from the catalog. -/
def notFoundBody (tool_name : String) : Value :=
  .dict [("status", .str "error"),
    ("error", .dict [("type", .str "NotFound"),
      ("message", .str ("Tool " ++ tool_name ++ " not found"))])]

/-- The 400 body for failed argument validation, carrying the full error
list as `details`. -/
def validationErrorBody (errors : List String) : Value :=
  .dict [("status", .str "error"),
    ("error", .dict [("type", .str "ValidationError"),
      ("message", .str "Invalid arguments"),
      ("details", .list (errors.map .str))])]

/-- The 500 body for an exception caught by the handler's `except`. -/
def internalErrorBody (msg : String) : Value :=
  .dict [("status", .str "error"),
    ("error", .dict [("type", .str "InternalError"),
      ("message", .str ("Failed to execute tool: " ++ msg))])]

/-- Steps of `tool_executor_handler` from the catalog lookup on: schema
lookup, argument validation, context injection, routing, and result
post-processing.  Runs inside the handler's `try`. -/
def tool_executor_core (tool_schemas : List (String × Value))
    (route : String → Value → Except String Value)
    (tool_name : String) (arguments : Value)
    (project_id fn_name request_id : String) : Except String HttpResponse := do
  match getKey tool_name tool_schemas with
  | none => return create_response 404 (notFoundBody tool_name) []
  | some schema => do
    let inputSchema ← pyGetItem schema "inputSchema"
    let validation_result := validate_tool_arguments arguments inputSchema
    if !validation_result.valid then
      return create_response 400 (validationErrorBody validation_result.errors) []
    else do
      let args1 ← pySetItem arguments "_project_id" (.str project_id)
      let args2 ← pySetItem args1 "_lambda_context"
        (.dict [("function_name", .str fn_name), ("request_id", .str request_id)])
      let result ← route tool_name args2
      let final : Value :=
        match result with
        | .str s =>
          match jsonParse s with
          | some v => v
          | none => .dict [("status", .str "success"), ("data", .str s)]
        | v => v
      return create_response 200 final []

/-- Body of `tool_executor_handler`'s `try`: tool-name guard, request-body
extraction, then the core. -/
def tool_executor_body (tool_schemas : List (String × Value))
    (route : String → Value → Except String Value)
    (tool_name : Option String) (body : Value)
    (project_id fn_name request_id : String) : Except String HttpResponse :=
  match tool_name with
  | none => .ok (create_response 400 badRequestNameBody [])
  | some tn =>
    if tn = "" then .ok (create_response 400 badRequestNameBody [])
    else
      match body with
      | .str s =>
        match jsonParse s with
        | none => .ok (create_response 400 badRequestJsonBody [])
        | some arguments =>
          tool_executor_core tool_schemas route tn arguments project_id fn_name request_id
      | v =>
        tool_executor_core tool_schemas route tn (if truthy v then v else .dict [])
          project_id fn_name request_id

/-- Embedding of `tool_executor_handler`: the `try` body with the
`except` converting any raised exception into a 500 `InternalError`
envelope. -/
def tool_executor_handler (tool_schemas : List (String × Value))
    (route : String → Value → Except String Value)
    (tool_name : Option String) (body : Value)
    (project_id fn_name request_id : String) : HttpResponse :=
  match tool_executor_body tool_schemas route tool_name body project_id fn_name request_id with
  | .ok r => r
  | .error e => create_response 500 (internalErrorBody e) []

/-! ### Envelope-shape predicates

These characterize the two canonical envelope shapes on the wire: the
response text must be a JSON object whose `status` is `"success"` or
`"error"`. -/

/-- The response text denotes a canonical envelope. -/
def isEnvelope (s : String) : Bool :=
  match jsonParse s with
  | some (.dict d) =>
    match getKey "status" d with
    | some (.str "success") => true
    | some (.str "error") => true
    | _ => false
  | _ => false

/-- A handler result that `format_success_response` passes through
pre-formatted rather than wrapping: a JSON-decodable string, or a mapping
carrying its own `status` key. -/
def preFormatted : Value → Bool
  | .str s => (jsonParse s).isSome
  | .dict d => hasKey "status" d
  | _ => false

/-- Error envelopes produced by `format_error_response` are canonical. -/
theorem isEnvelope_format_error (e ts : String) :
    isEnvelope (format_error_response e ts) = true := by
  unfold isEnvelope format_error_response
  rw [jsonParse_jsonDumps]
  rfl

/-- Success envelopes produced by wrapping a non-pre-formatted result are
canonical. -/
theorem isEnvelope_format_success (v : Value) (ts : String) (h : preFormatted v = false) :
    isEnvelope (format_success_response v ts) = true := by
  cases v with
  | str s =>
    have hp : (jsonParse s).isSome = false := h
    unfold format_success_response
    simp only [hp, Bool.false_eq_true, if_false]
    unfold isEnvelope
    rw [jsonParse_jsonDumps]
    rfl
  | dict d =>
    have hp : hasKey "status" d = false := h
    unfold format_success_response
    simp only [hp, Bool.false_eq_true, if_false]
    unfold isEnvelope
    rw [jsonParse_jsonDumps]
    rfl
  | null =>
    unfold format_success_response isEnvelope
    rw [jsonParse_jsonDumps]
    rfl
  | bool b =>
    unfold format_success_response isEnvelope
    rw [jsonParse_jsonDumps]
    rfl
  | int n =>
    unfold format_success_response isEnvelope
    rw [jsonParse_jsonDumps]
    rfl
  | list l =>
    unfold format_success_response isEnvelope
    rw [jsonParse_jsonDumps]
    rfl

/-- The formatter's output is always accepted by `json.loads`: pass-through
strings were verified JSON, and every other branch serializes an object. -/
theorem jsonParse_format_success_isSome (x : Value) (ts : String) :
    (jsonParse (format_success_response x ts)).isSome = true := by
  unfold format_success_response
  cases x with
  | str s =>
    by_cases hp : (jsonParse s).isSome = true
    · simp [hp]
    · simp only [Bool.not_eq_true] at hp
      simp [hp, jsonParse_jsonDumps]
  | dict d =>
    by_cases hs : hasKey "status" d = true
    · simp [hs, jsonParse_jsonDumps]
    · simp only [Bool.not_eq_true] at hs
      simp [hs, jsonParse_jsonDumps]
  | null => simp [jsonParse_jsonDumps]
  | bool b => simp [jsonParse_jsonDumps]
  | int n => simp [jsonParse_jsonDumps]
  | list l => simp [jsonParse_jsonDumps]

/-! ### Claim C4: type-mismatch short-circuit -/

/-- C4: when a supplied non-null value fails the declared type check, the
field validator emits exactly the one type-mismatch message and performs no
further constraint checks for that field — no length, range, pattern,
items, or enum error can accompany it in the same pass. -/
theorem validate_field_type_short_circuit (value : Value) (S : List (String × Value))
    (name : String) (t : Value) (hv : value ≠ .null)
    (ht : getKey "type" S = some t) (htr : truthy t = true)
    (hvt : _validate_type value (wrapType t) = .ok false) :
    _validate_field value (.dict S) name
      = .ok ["Field \x27" ++ name ++ "\x27 must be of type " ++ pyStr (wrapType t) ++
          ", got " ++ typeName value] := by
  cases value with
  | null => exact absurd rfl hv
  | bool b =>
    rw [_validate_field.eq_def]
    simp [pyGet, ht, htr, hvt, bind, Except.bind, typeName]
    all_goals rfl
  | int n =>
    rw [_validate_field.eq_def]
    simp [pyGet, ht, htr, hvt, bind, Except.bind, typeName]
    all_goals rfl
  | str s =>
    rw [_validate_field.eq_def]
    simp [pyGet, ht, htr, hvt, bind, Except.bind, typeName]
    all_goals rfl
  | list l =>
    rw [_validate_field.eq_def]
    simp [pyGet, ht, htr, hvt, bind, Except.bind, typeName]
    all_goals rfl
  | dict d =>
    rw [_validate_field.eq_def]
    simp [pyGet, ht, htr, hvt, bind, Except.bind, typeName]
    all_goals rfl

/-- C4 witness: an integer against a string-типed field schema that also
declares a length bound and an enum yields exactly the single
type-mismatch message. -/
theorem validate_field_type_short_circuit_witness :
    _validate_field (.int 7)
      (.dict [("type", .str "string"), ("minLength", .int 2), ("enum", .list [.str "xx"])]) "q"
      = .ok ["Field \x27q\x27 must be of type [\x27string\x27], got int"] :=
  validate_field_type_short_circuit (.int 7) _ "q" (.str "string")
    (fun h => Value.noConfusion h) rfl rfl rfl

/-! ### Claim C5: enum checking is conditional on the type gate -/

/-- C5 counterexample: a value of the wrong runtime type never reaches
the enum check — the claim that the enum violation is emitted "for every
supplied value of any runtime type" fails at this input, where the result
carries only the type-mismatch message and no enum message. -/
theorem enum_skipped_on_type_mismatch :
    _validate_field (.int 5) (.dict [("type", .str "string"), ("enum", .list [.str "a"])]) "f"
      = .ok ["Field \x27f\x27 must be of type [\x27string\x27], got int"] ∧
    "Field \x27f\x27 must be one of [\x27a\x27], got \x275\x27"
      ∉ ["Field \x27f\x27 must be of type [\x27string\x27], got int"] := by
  constructor
  · simp [_validate_field, _validate_branch, _validate_type, pyGet, pyGetItem, pyContains,
      pyIter, getKey, hasKey, truthy, wrapType, isInst, typeName, pyStr, pyRepr, pyReprList,
      pyEq, bind, Except.bind, pure, Except.pure]
    all_goals rfl
  · decide

/-- C5 amended: the enum check runs whenever `enum` is declared AND the
value is non-null AND the declared-type gate passed (no truthy `type`
declared, or the type check succeeded); it then runs in addition to the
per-type constraint checks, appending its violation after theirs. -/
theorem validate_field_enum_after_branch (value : Value) (S : List (String × Value))
    (name : String) (en : Value) (es : List String)
    (hv : value ≠ .null)
    (hgate : truthy ((getKey "type" S).getD .null) = false ∨
      _validate_type value (wrapType ((getKey "type" S).getD .null)) = .ok true)
    (hen : getKey "enum" S = some en)
    (hmem : pyContains en value = .ok false)
    (hsub : _validate_branch value (.dict S) name = .ok es) :
    _validate_field value (.dict S) name
      = .ok (es ++ ["Field \x27" ++ name ++ "\x27 must be one of " ++ pyStr en ++
          ", got \x27" ++ pyStr value ++ "\x27"]) := by
  have hk : hasKey "enum" S = true := by simp [hasKey, hen]
  have hc1 : pyContains (.dict S) (.str "enum") = .ok (hasKey "enum" S) := rfl
  cases value with
  | null => exact absurd rfl hv
  | bool b =>
    rcases hgate with hgate | hgate <;>
      (rw [_validate_field.eq_def]
       simp [pyGet, pyGetItem, hgate, hen, hc1, hk, hsub, hmem, bind, Except.bind,
         pure, Except.pure]
       all_goals rfl)
  | int n =>
    rcases hgate with hgate | hgate <;>
      (rw [_validate_field.eq_def]
       simp [pyGet, pyGetItem, hgate, hen, hc1, hk, hsub, hmem, bind, Except.bind,
         pure, Except.pure]
       all_goals rfl)
  | str s =>
    rcases hgate with hgate | hgate <;>
      (rw [_validate_field.eq_def]
       simp [pyGet, pyGetItem, hgate, hen, hc1, hk, hsub, hmem, bind, Except.bind,
         pure, Except.pure]
       all_goals rfl)
  | list l =>
    rcases hgate with hgate | hgate <;>
      (rw [_validate_field.eq_def]
       simp [pyGet, pyGetItem, hgate, hen, hc1, hk, hsub, hmem, bind, Except.bind,
         pure, Except.pure]
       all_goals rfl)
  | dict d =>
    rcases hgate with hgate | hgate <;>
      (rw [_validate_field.eq_def]
       simp [pyGet, pyGetItem, hgate, hen, hc1, hk, hsub, hmem, bind, Except.bind,
         pure, Except.pure]
       all_goals rfl)

/-- C5 witness: a type-correct integer that violates both `minimum` and
`enum` collects the range violation and then the enum violation. -/
theorem validate_field_enum_after_branch_witness :
    _validate_field (.int 5)
      (.dict [("type", .str "integer"), ("minimum", .int 10), ("enum", .list [.int 2, .int 4])]) "f"
      = .ok (["Field \x27f\x27 must be at least 10"] ++
          ["Field \x27f\x27 must be one of [2, 4], got \x275\x27"]) := by
  have hsub : _validate_branch (.int 5)
      (.dict [("type", .str "integer"), ("minimum", .int 10), ("enum", .list [.int 2, .int 4])]) "f"
      = .ok ["Field \x27f\x27 must be at least 10"] := by
    simp [_validate_branch, _validate_number, pyContains, pyGetItem, getKey, hasKey,
      pyLtNum, pyGtNum, pyLeNum, pyGeNum, pyModNonzero, asNumber, pyStr, pyRepr, pyEq,
      bind, Except.bind, pure, Except.pure]
    rfl
  exact validate_field_enum_after_branch (.int 5) _ "f" (.list [.int 2, .int 4]) _
    (fun h => Value.noConfusion h) (Or.inr rfl) rfl rfl hsub

/-! ### Claim C6: the validation engine never raises -/

/-- C6: `validate_tool_arguments` is total over all argument and schema
values: a successful `try` body is returned as-is, and any internal
exception is converted into `valid = false` with exactly the single
synthetic `"Validation error: <message>"` entry, so dispatch can always
proceed to an envelope. -/
theorem validate_tool_arguments_never_raises (arguments schema : Value) :
    (∀ r, validateBody arguments schema = .ok r →
      validate_tool_arguments arguments schema = r) ∧
    (∀ e, validateBody arguments schema = .error e →
      validate_tool_arguments arguments schema = ⟨false, ["Validation error: " ++ e]⟩) := by
  constructor
  · intro r h
    unfold validate_tool_arguments
    rw [h]
  · intro e h
    unfold validate_tool_arguments
    rw [h]

/-- C6 witness: a malformed (non-dict) schema raises internally
(`AttributeError` on `.get`) and is converted into the single synthetic
error entry. -/
theorem validate_tool_arguments_never_raises_witness :
    validateBody (.dict []) (.int 5)
      = .error "\x27int\x27 object has no attribute \x27get\x27" ∧
    validate_tool_arguments (.dict []) (.int 5)
      = ⟨false, ["Validation error: \x27int\x27 object has no attribute \x27get\x27"]⟩ := by
  have h : validateBody (.dict []) (.int 5)
      = .error "\x27int\x27 object has no attribute \x27get\x27" := by
    simp [validateBody, pyGet, typeName, bind, Except.bind]
  exact ⟨h, (validate_tool_arguments_never_raises (.dict []) (.int 5)).2 _ h⟩

/-! ### Claim C7: idempotence of the success formatter -/

/-- C7: `format_success_response` is idempotent — feeding its own output
back in returns it unchanged (a pass-through applies: the output of the
formatter is always a JSON-decodable string, and the string branch returns
verified-JSON strings as-is), so an already-formatted result is never
double-wrapped. -/
theorem format_success_response_idempotent (x : Value) (ts1 ts2 : String) :
    format_success_response (.str (format_success_response x ts1)) ts2
      = format_success_response x ts1 := by
  have h := jsonParse_format_success_isSome x ts1
  generalize hgen : format_success_response x ts1 = s
  rw [hgen] at h
  simp [format_success_response, h]

/-! ### Claim C9: pattern checking uses prefix (`re.match`) semantics -/

/-- On anchor-free literal patterns the modelled `re.match` is exactly a
prefix test. -/
theorem reMatchAux_literal :
    ∀ (p s : List Char), (∀ c ∈ p, c ≠ '.' ∧ c ≠ '$') →
      reMatchAux p s = p.isPrefixOf s := by
  intro p
  induction p with
  | nil =>
    intro s _
    cases s <;> rfl
  | cons c cs ih =>
    intro s hp
    obtain ⟨hdot, hdol⟩ := hp c (by simp)
    have hp' : ∀ x ∈ cs, x ≠ '.' ∧ x ≠ '$' := fun x hx => hp x (by simp [hx])
    cases s with
    | nil =>
      cases cs with
      | nil =>
        rw [reMatchAux.eq_def]
        simp [hdol, List.isPrefixOf]
      | cons c2 cs2 =>
        rw [reMatchAux.eq_def]
        simp [List.isPrefixOf]
    | cons d ds =>
      have hb : (c == '.') = false := by simp [hdot]
      cases cs with
      | nil =>
        rw [reMatchAux.eq_def]
        simp [hdol, hb, List.isPrefixOf, reMatchAux]
      | cons c2 cs2 =>
        rw [reMatchAux.eq_def]
        simp [hb, List.isPrefixOf, ih ds hp']

/-- C9 counterexample: with pattern `a` the supplied value `ab` has only a
leading match — the whole value does not match — yet the pattern check
emits no error, refuting "passes iff the whole value matches". -/
theorem pattern_prefix_match_counterexample :
    _validate_string "ab" (.dict [("pattern", .str "a")]) "f" = .ok [] ∧
    reFullMatch "a" "ab" = false ∧
    ("a" : String) ≠ "ab" := by
  refine ⟨?_, rfl, by decide⟩
  simp [_validate_string, pyContains, pyGetItem, getKey, hasKey, reMatch, reMatchAux,
    bind, Except.bind, pure, Except.pure, pyEq]

/-- C9 amended: for an anchor-free literal pattern, the supplied string
passes the pattern check iff the pattern matches a prefix of the value
(`re.match` anchors only at the start); a string with only a leading match
passes with no error, and whole-value matching is not required. -/
theorem validate_string_pattern_prefix_match (p value name : String) (S : List (String × Value))
    (hpat : getKey "pattern" S = some (.str p))
    (hlit : ∀ c ∈ p.data, c ≠ '.' ∧ c ≠ '$')
    (hmin : getKey "minLength" S = none)
    (hmax : getKey "maxLength" S = none)
    (hfmt : getKey "format" S = none) :
    _validate_string value (.dict S) name
      = .ok (if p.data.isPrefixOf value.data then []
          else ["Field \x27" ++ name ++ "\x27 does not match required pattern"]) := by
  have h1 : hasKey "minLength" S = false := by simp [hasKey, hmin]
  have h2 : hasKey "maxLength" S = false := by simp [hasKey, hmax]
  have h3 : hasKey "pattern" S = true := by simp [hasKey, hpat]
  have h4 : hasKey "format" S = false := by simp [hasKey, hfmt]
  have hc1 : pyContains (.dict S) (.str "minLength") = .ok (hasKey "minLength" S) := rfl
  have hc2 : pyContains (.dict S) (.str "maxLength") = .ok (hasKey "maxLength" S) := rfl
  have hc3 : pyContains (.dict S) (.str "pattern") = .ok (hasKey "pattern" S) := rfl
  have hc4 : pyContains (.dict S) (.str "format") = .ok (hasKey "format" S) := rfl
  have hg : pyGetItem (.dict S) "pattern" = .ok (.str p) := by simp [pyGetItem, hpat]
  have hm : reMatch p value = p.data.isPrefixOf value.data :=
    reMatchAux_literal p.data value.data hlit
  simp only [_validate_string, hc1, hc2, hc3, hc4, h1, h2, h3, h4, hg, hm,
    bind, Except.bind, pure, Except.pure]
  cases hpre : p.data.isPrefixOf value.data <;> simp [hpre]

/-- C9 witness: pattern `ab` accepts the longer value `abc` (a prefix
match) with no pattern error. -/
theorem validate_string_pattern_prefix_match_witness :
    _validate_string "abc" (.dict [("pattern", .str "ab")]) "f" = .ok [] := by
  have h := validate_string_pattern_prefix_match "ab" "abc" "f" [("pattern", .str "ab")]
    rfl (by decide) rfl rfl rfl
  simpa using h

/-! ### Claim C10: the `additionalProperties` default is asymmetric -/

/-- C10: a schema with no `additionalProperties` key rejects undeclared
argument names at the top level of `validate_tool_arguments` (default
false, emitting an unknown-field error), while the nested object check of
`_validate_object` silently accepts undeclared nested properties under the
same absence (default true). -/
theorem additionalProperties_default_asymmetry :
    (∀ (k : String) (v : Value) (S P : List (String × Value)),
      getKey "required" S = none →
      getKey "properties" S = some (.dict P) →
      hasKey k P = false →
      getKey "additionalProperties" S = none →
      validate_tool_arguments (.dict [(k, v)]) (.dict S)
        = ⟨false, ["Unknown field: \x27" ++ k ++ "\x27"]⟩) ∧
    (∀ (k : String) (v : Value) (S P : List (String × Value)) (name : String),
      getKey "minProperties" S = none →
      getKey "maxProperties" S = none →
      getKey "required" S = none →
      getKey "properties" S = some (.dict P) →
      hasKey k P = false →
      getKey "additionalProperties" S = none →
      _validate_object [(k, v)] (.dict S) name = .ok []) := by
  constructor
  · intro k v S P hreq hprops hk hap
    simp [validate_tool_arguments, validateBody, requiredLoop, argsLoop, pyGet, pyItems,
      pyIter, pyContains, hreq, hprops, hk, hap, truthy, bind, Except.bind, pure, Except.pure]
  · intro k v S P name hminp hmaxp hreq hprops hk hap
    have c1 : hasKey "minProperties" S = false := by simp [hasKey, hminp]
    have c2 : hasKey "maxProperties" S = false := by simp [hasKey, hmaxp]
    rw [_validate_object.eq_def]
    simp [_validate_props, pyGet, pyIter, pyContains, c1, c2, hreq, hprops, hk, hap,
      truthy, bind, Except.bind, pure, Except.pure]

/-- C10 witness: at the top level the undeclared argument `extra` is
flagged, while the same undeclared key inside a nested object value is
accepted silently. -/
theorem additionalProperties_default_asymmetry_witness :
    validate_tool_arguments (.dict [("extra", .int 1)])
      (.dict [("properties", .dict [("a", .dict [])])])
      = ⟨false, ["Unknown field: \x27extra\x27"]⟩ ∧
    _validate_object [("extra", .int 1)]
      (.dict [("properties", .dict [("a", .dict [])])]) "obj" = .ok [] := by
  constructor
  · exact additionalProperties_default_asymmetry.1 "extra" (.int 1)
      [("properties", .dict [("a", .dict [])])] [("a", .dict [])] rfl rfl rfl rfl
  · exact additionalProperties_default_asymmetry.2 "extra" (.int 1)
      [("properties", .dict [("a", .dict [])])] [("a", .dict [])] "obj" rfl rfl rfl rfl rfl rfl

/-! ### Claim C3: ordering of the errors list -/

/-- Every message emitted by the required-field pass is a missing-field
message. -/
theorem requiredLoop_missing_only :
    ∀ (reqs : List Value) (args : Value) (es : List String),
      requiredLoop reqs args = .ok es →
      ∀ e ∈ es, ∃ su, e = "Missing required field: " ++ su := by
  intro reqs
  induction reqs with
  | nil =>
    intro args es h e he
    simp only [requiredLoop, pure, Except.pure, Except.ok.injEq] at h
    subst h
    simp at he
  | cons f rest ih =>
    intro args es h e he
    cases hq : pyContains args f with
    | error err =>
      rw [requiredLoop] at h
      simp [hq, bind, Except.bind] at h
    | ok b =>
      cases hr : requiredLoop rest args with
      | error err =>
        rw [requiredLoop] at h
        simp [hq, hr, bind, Except.bind] at h
      | ok es2 =>
        rw [requiredLoop] at h
        cases b with
        | false =>
          simp only [hq, hr, bind, Except.bind, Bool.not_false, if_pos, pure, Except.pure,
            Except.ok.injEq] at h
          subst h
          rw [List.mem_cons] at he
          rcases he with he | he
          · refine ⟨"\x27" ++ (pyStr f ++ "\x27"), ?_⟩
            rw [he, show ("Missing required field: \x27" : String)
              = "Missing required field: " ++ "\x27" from rfl,
              String.append_assoc, String.append_assoc]
          · exact ih args es2 hr e he
        | true =>
          simp only [hq, hr, bind, Except.bind, Bool.not_true, Bool.false_eq_true, if_false,
            pure, Except.pure, Except.ok.injEq] at h
          subst h
          exact ih args es2 hr e he

/-- Shape of one argument's contribution to the per-argument pass, as a
function of whether the name is declared and of the `additionalProperties`
policy. -/
def argPieceSpec (properties : Value) (S : List (String × Value))
    (k : String) (v : Value) (piece : List String) : Prop :=
  (pyContains properties (.str k) = .ok true →
    ∃ fs, pyGetItem properties k = .ok fs ∧ _validate_field v fs k = .ok piece) ∧
  (pyContains properties (.str k) = .ok false →
    (truthy ((getKey "additionalProperties" S).getD (.bool false)) = false →
      piece = ["Unknown field: \x27" ++ k ++ "\x27"]) ∧
    (truthy ((getKey "additionalProperties" S).getD (.bool false)) = true →
      piece = []))

/-- The per-argument pass emits one contiguous block per supplied argument,
in argument iteration order: a declared field's violations, an undeclared
field's unknown-field complaint (when `additionalProperties` is falsy), or
nothing (when it is truthy). -/
theorem argsLoop_spec :
    ∀ (A : List (String × Value)) (properties : Value) (S : List (String × Value))
      (es : List String),
      argsLoop A properties (.dict S) = .ok es →
      ∃ pieces : List (List String),
        es = pieces.flatten ∧
        pieces.length = A.length ∧
        ∀ i (hiA : i < A.length) (hiP : i < pieces.length),
          argPieceSpec properties S (A.get ⟨i, hiA⟩).1 (A.get ⟨i, hiA⟩).2
            (pieces.get ⟨i, hiP⟩) := by
  intro A
  induction A with
  | nil =>
    intro properties S es h
    simp only [argsLoop, pure, Except.pure, Except.ok.injEq] at h
    subst h
    exact ⟨[], rfl, rfl, fun i hiA _ => absurd hiA (by simp)⟩
  | cons kv A' ih =>
    intro properties S es h
    obtain ⟨k, v⟩ := kv
    cases hq : pyContains properties (.str k) with
    | error err =>
      rw [argsLoop] at h
      simp [hq, bind, Except.bind] at h
    | ok b =>
      cases b with
      | true =>
        cases hgi : pyGetItem properties k with
        | error err =>
          rw [argsLoop] at h
          simp [hq, hgi, bind, Except.bind] at h
        | ok fs =>
          cases hvf : _validate_field v fs k with
          | error err =>
            rw [argsLoop] at h
            simp [hq, hgi, hvf, bind, Except.bind] at h
          | ok fe =>
            cases hrec : argsLoop A' properties (.dict S) with
            | error err =>
              rw [argsLoop] at h
              simp [hq, hgi, hvf, hrec, bind, Except.bind] at h
            | ok res2 =>
              rw [argsLoop] at h
              simp only [hq, hgi, hvf, hrec, bind, Except.bind, if_pos, pure, Except.pure,
                Except.ok.injEq] at h
              subst h
              obtain ⟨pieces', hj, hl, hs⟩ := ih properties S res2 hrec
              refine ⟨fe :: pieces', by simp [hj], by simp [hl], ?_⟩
              intro i hiA hiP
              cases i with
              | zero =>
                simp only [List.get]
                constructor
                · intro _
                  exact ⟨fs, hgi, hvf⟩
                · intro hfalse
                  rw [hq] at hfalse
                  simp at hfalse
              | succ j =>
                simp only [List.get]
                exact hs j (by simpa using hiA) (by simpa using hiP)
      | false =>
        have hap : pyGet (.dict S) "additionalProperties" (.bool false)
            = .ok ((getKey "additionalProperties" S).getD (.bool false)) := rfl
        cases htr : truthy ((getKey "additionalProperties" S).getD (.bool false)) with
        | false =>
          cases hrec : argsLoop A' properties (.dict S) with
          | error err =>
            rw [argsLoop] at h
            simp [hq, hap, htr, hrec, bind, Except.bind] at h
          | ok res2 =>
            rw [argsLoop] at h
            simp only [hq, hap, htr, hrec, bind, Except.bind, Bool.false_eq_true, if_false,
              Bool.not_false, if_pos, pure, Except.pure, Except.ok.injEq] at h
            subst h
            obtain ⟨pieces', hj, hl, hs⟩ := ih properties S res2 hrec
            refine ⟨["Unknown field: \x27" ++ k ++ "\x27"] :: pieces', by simp [hj],
              by simp [hl], ?_⟩
            intro i hiA hiP
            cases i with
            | zero =>
              simp only [List.get]
              constructor
              · intro htrue
                rw [hq] at htrue
                simp at htrue
              · intro _
                exact ⟨fun _ => rfl, fun hc => absurd (htr.symm.trans hc) (by simp)⟩
            | succ j =>
              simp only [List.get]
              exact hs j (by simpa using hiA) (by simpa using hiP)
        | true =>
          cases hrec : argsLoop A' properties (.dict S) with
          | error err =>
            rw [argsLoop] at h
            simp [hq, hap, htr, hrec, bind, Except.bind] at h
          | ok res2 =>
            rw [argsLoop] at h
            simp only [hq, hap, htr, hrec, bind, Except.bind, Bool.false_eq_true, if_false,
              Bool.not_true, pure, Except.pure, Except.ok.injEq] at h
            subst h
            obtain ⟨pieces', hj, hl, hs⟩ := ih properties S res2 hrec
            refine ⟨[] :: pieces', by simp [hj], by simp [hl], ?_⟩
            intro i hiA hiP
            cases i with
            | zero =>
              simp only [List.get]
              constructor
              · intro htrue
                rw [hq] at htrue
                simp at htrue
              · intro _
                exact ⟨fun hc => absurd (htr.symm.trans hc) (by simp), fun _ => rfl⟩
            | succ j =>
              simp only [List.get]
              exact hs j (by simpa using hiA) (by simpa using hiP)

/-- C3 counterexample: an undeclared argument iterated before a declared
one places its unknown-field complaint before the declared field's
violation — unknown-field complaints are not grouped after the per-field
violations, refuting the claimed three-group order. -/
theorem unknown_field_not_last_counterexample :
    validate_tool_arguments (.dict [("z", .int 1), ("a", .int 2)])
      (.dict [("properties", .dict [("a", .dict [("type", .str "string")])])])
      = ⟨false, ["Unknown field: \x27z\x27",
          "Field \x27a\x27 must be of type [\x27string\x27], got int"]⟩ ∧
    "Unknown field: \x27z\x27" ≠ "Field \x27a\x27 must be of type [\x27string\x27], got int" := by
  constructor
  · simp [validate_tool_arguments, validateBody, requiredLoop, argsLoop, _validate_field,
      _validate_branch, _validate_type, pyGet, pyGetItem, pyContains, pyIter, pyItems,
      getKey, hasKey, truthy, wrapType, isInst, typeName, pyStr, pyRepr, pyReprList, pyEq,
      bind, Except.bind, pure, Except.pure]
    all_goals rfl
  · decide

/-- C3 amended: on any exception-free run, the errors list decomposes as
the missing-required-field messages first (in schema order), followed by
one contiguous block per supplied argument in argument iteration order —
a declared field's violations, an undeclared field's single unknown-field
complaint (under falsy `additionalProperties`), or nothing (under truthy);
unknown-field complaints are interleaved by argument position, not grouped
last. -/
theorem validate_error_order (A S : List (String × Value)) (r : VResult)
    (hbody : validateBody (.dict A) (.dict S) = .ok r) :
    ∃ (reqErrs : List String) (pieces : List (List String)),
      r.errors = reqErrs ++ pieces.flatten ∧
      (∀ e ∈ reqErrs, ∃ su, e = "Missing required field: " ++ su) ∧
      pieces.length = A.length ∧
      (∀ i (hiA : i < A.length) (hiP : i < pieces.length),
        argPieceSpec ((getKey "properties" S).getD (.dict [])) S
          (A.get ⟨i, hiA⟩).1 (A.get ⟨i, hiA⟩).2 (pieces.get ⟨i, hiP⟩)) := by
  have hreq : pyGet (.dict S) "required" (.list [])
      = .ok ((getKey "required" S).getD (.list [])) := rfl
  have hprops : pyGet (.dict S) "properties" (.dict [])
      = .ok ((getKey "properties" S).getD (.dict [])) := rfl
  have hitems : pyItems (.dict A) = .ok A := rfl
  cases hiter : pyIter ((getKey "required" S).getD (.list [])) with
  | error err =>
    rw [validateBody] at hbody
    simp [hreq, hiter, bind, Except.bind] at hbody
  | ok reqList =>
    cases hrl : requiredLoop reqList (.dict A) with
    | error err =>
      rw [validateBody] at hbody
      simp [hreq, hiter, hrl, bind, Except.bind] at hbody
    | ok m =>
      cases hal : argsLoop A ((getKey "properties" S).getD (.dict [])) (.dict S) with
      | error err =>
        rw [validateBody] at hbody
        simp [hreq, hiter, hrl, hprops, hitems, hal, bind, Except.bind] at hbody
      | ok es2 =>
        rw [validateBody] at hbody
        simp only [hreq, hiter, hrl, hprops, hitems, hal, bind, Except.bind, pure,
          Except.pure, Except.ok.injEq] at hbody
        obtain ⟨pieces, hj, hl, hs⟩ := argsLoop_spec A _ S es2 hal
        refine ⟨m, pieces, ?_, requiredLoop_missing_only reqList (.dict A) m hrl, hl, hs⟩
        rw [← hbody]
        simp [hj]

/-- C3 witness: a concrete run with one missing required field, one
declared-field violation, and one trailing unknown field fits the
decomposition. -/
theorem validate_error_order_witness :
    ∃ (reqErrs : List String) (pieces : List (List String)),
      (validate_tool_arguments
        (.dict [("b", .str "x"), ("q", .int 3)])
        (.dict [("required", .list [.str "miss"]),
          ("properties", .dict [("b", .dict [("type", .str "integer")])])])).errors
        = reqErrs ++ pieces.flatten ∧
      (∀ e ∈ reqErrs, ∃ su, e = "Missing required field: " ++ su) ∧
      pieces.length = [("b", Value.str "x"), ("q", Value.int 3)].length ∧
      (∀ i (hiA : i < [("b", Value.str "x"), ("q", Value.int 3)].length)
        (hiP : i < pieces.length),
        argPieceSpec
          ((getKey "properties" [("required", Value.list [.str "miss"]),
            ("properties", Value.dict [("b", .dict [("type", Value.str "integer")])])]).getD
              (.dict []))
          [("required", Value.list [.str "miss"]),
            ("properties", Value.dict [("b", .dict [("type", Value.str "integer")])])]
          ([("b", Value.str "x"), ("q", Value.int 3)].get ⟨i, hiA⟩).1
          ([("b", Value.str "x"), ("q", Value.int 3)].get ⟨i, hiA⟩).2
          (pieces.get ⟨i, hiP⟩)) := by
  have hbody : validateBody (.dict [("b", .str "x"), ("q", .int 3)])
      (.dict [("required", .list [.str "miss"]),
        ("properties", .dict [("b", .dict [("type", .str "integer")])])])
      = .ok ⟨false, ["Missing required field: \x27miss\x27",
          "Field \x27b\x27 must be of type [\x27integer\x27], got str",
          "Unknown field: \x27q\x27"]⟩ := by
    simp [validateBody, requiredLoop, argsLoop, _validate_field, _validate_branch,
      _validate_type, pyGet, pyGetItem, pyContains, pyIter, pyItems, getKey, hasKey,
      truthy, wrapType, isInst, typeName, pyStr, pyRepr, pyReprList, pyEq,
      bind, Except.bind, pure, Except.pure]
    all_goals rfl
  have h := validate_error_order [("b", .str "x"), ("q", .int 3)]
    [("required", .list [.str "miss"]),
      ("properties", .dict [("b", .dict [("type", .str "integer")])])] _ hbody
  have hval : validate_tool_arguments (.dict [("b", .str "x"), ("q", .int 3)])
      (.dict [("required", .list [.str "miss"]),
        ("properties", .dict [("b", .dict [("type", .str "integer")])])])
      = ⟨false, ["Missing required field: \x27miss\x27",
          "Field \x27b\x27 must be of type [\x27integer\x27], got str",
          "Unknown field: \x27q\x27"]⟩ := by
    unfold validate_tool_arguments
    rw [hbody]
  rw [hval]
  exact h

/-! ### Claim C1: catalog miss handling -/

/-- The Python `body or \x7b\x7d` default applied to a dict body is the
dict itself (the empty dict is falsy but replaced by an equal value). -/
theorem dictOrEmpty_eq (A : List (String × Value)) :
    (if truthy (.dict A) then Value.dict A else .dict []) = .dict A := by
  cases A <;> simp [truthy]

/-- The `arguments or \x7b\x7d` default applied to a dict argument is the
dict itself. -/
theorem argOrEmpty_dict (A : List (String × Value)) :
    argOrEmpty (some (.dict A)) = .dict A := by
  simp [argOrEmpty, dictOrEmpty_eq]

/-- C1 counterexample: the MCP dispatcher's catalog-miss envelope carries
the generic kind `Error`, not `NotFound` — the claim that every dispatch
of an unknown tool yields a `NotFound` kind fails on this front-end. -/
theorem mcp_unknown_tool_generic_kind :
    handle_call_tool [] (fun _ _ => .error "boom") "nonexistent_tool" (some (.dict [])) "T"
      = [⟨"text", format_error_response "Unknown tool: nonexistent_tool" "T"⟩] ∧
    jsonParse (format_error_response "Unknown tool: nonexistent_tool" "T")
      = some (.dict [("status", .str "error"),
          ("error", .dict [("type", .str "Error"),
            ("message", .str "Unknown tool: nonexistent_tool")]),
          ("timestamp", .str "TZ")]) ∧
    ("Error" : String) ≠ "NotFound" := by
  refine ⟨rfl, ?_, by decide⟩
  rw [show format_error_response "Unknown tool: nonexistent_tool" "T"
      = jsonDumps (.dict [("status", .str "error"),
          ("error", .dict [("type", .str "Error"),
            ("message", .str "Unknown tool: nonexistent_tool")]),
          ("timestamp", .str ("T" ++ "Z"))]) from rfl,
    jsonParse_jsonDumps]
  rfl

/-- C1 amended: a catalog miss is detected before argument validation and
before any handler is consulted (the result is independent of the argument
mapping and of the handler chain), and the error envelope names the tool;
the HTTP dispatcher reports it with kind `NotFound` (status 404), while
the MCP dispatcher reports it with the generic kind `Error` and message
`Unknown tool: <name>`. -/
theorem dispatch_unknown_tool (catalog : List (String × Value))
    (route : String → Value → Except String Value) (name : String)
    (args : Option Value) (A : List (String × Value))
    (pid fn rid ts : String)
    (hmiss : getKey name catalog = none) :
    (name ≠ "" →
      tool_executor_handler catalog route (some name) (.dict A) pid fn rid
        = create_response 404 (notFoundBody name) []) ∧
    handle_call_tool catalog route name args ts
      = [⟨"text", format_error_response ("Unknown tool: " ++ name) ts⟩] := by
  constructor
  · intro hne
    simp [tool_executor_handler, tool_executor_body, tool_executor_core, hne, hmiss,
      pure, Except.pure]
  · simp [handle_call_tool, hmiss]

/-- C1 witness: dispatching `nonexistent_tool` against an empty catalog on
both front-ends. -/
theorem dispatch_unknown_tool_witness :
    tool_executor_handler [] (fun _ _ => .error "boom") (some "nonexistent_tool") (.dict [])
      "p" "fn" "rid" = create_response 404 (notFoundBody "nonexistent_tool") [] ∧
    handle_call_tool [] (fun _ _ => .error "boom") "nonexistent_tool" (some (.dict [])) "T"
      = [⟨"text", format_error_response "Unknown tool: nonexistent_tool" "T"⟩] := by
  have h := dispatch_unknown_tool [] (fun _ _ => .error "boom") "nonexistent_tool"
    (some (.dict [])) [] "p" "fn" "rid" "T" rfl
  exact ⟨h.1 (by decide), h.2⟩

/-! ### Claim C2: validation-failure handling -/

/-- C2 counterexample: the MCP dispatcher's validation-failure envelope
carries the generic kind `Error`, embeds the error list inside the message
string, and has no `details` field — the claim that every dispatch with
invalid arguments yields a `ValidationError` kind with `details` fails on
this front-end. -/
theorem mcp_validation_error_generic_kind :
    handle_call_tool [("t", .dict [("inputSchema", .dict [("required", .list [.str "q"])])])]
      (fun _ _ => .error "boom") "t" (some (.dict [])) "T"
      = [⟨"text", format_error_response
          "Invalid arguments: [\"Missing required field: \x27q\x27\"]" "T"⟩] ∧
    jsonParse (format_error_response
        "Invalid arguments: [\"Missing required field: \x27q\x27\"]" "T")
      = some (.dict [("status", .str "error"),
          ("error", .dict [("type", .str "Error"),
            ("message", .str "Invalid arguments: [\"Missing required field: \x27q\x27\"]")]),
          ("timestamp", .str "TZ")]) ∧
    hasKey "details" [("type", Value.str "Error"),
      ("message", .str "Invalid arguments: [\"Missing required field: \x27q\x27\"]")] = false ∧
    ("Error" : String) ≠ "ValidationError" := by
  refine ⟨?_, ?_, rfl, by decide⟩
  · simp [handle_call_tool, argOrEmpty, validate_tool_arguments, validateBody, requiredLoop,
      argsLoop, pyGet, pyGetItem, pyContains, pyIter, pyItems, getKey, hasKey, truthy,
      pyStr, pyRepr, pyReprStr, pyReprList, pyEq, bind, Except.bind, pure, Except.pure]
    all_goals rfl
  · rw [show format_error_response
        "Invalid arguments: [\"Missing required field: \x27q\x27\"]" "T"
      = jsonDumps (.dict [("status", .str "error"),
          ("error", .dict [("type", .str "Error"),
            ("message", .str "Invalid arguments: [\"Missing required field: \x27q\x27\"]")]),
          ("timestamp", .str ("T" ++ "Z"))]) from rfl,
      jsonParse_jsonDumps]
    rfl

/-- C2 amended: when the supplied arguments fail schema validation, the
handler is never invoked (the result is independent of the handler chain);
the HTTP dispatcher answers 400 with kind `ValidationError` and the full
error list as `details`, while the MCP dispatcher answers with the generic
kind `Error`, the stringified error list embedded in the message, and no
`details` field. -/
theorem dispatch_validation_error (catalog : List (String × Value))
    (route : String → Value → Except String Value) (name : String)
    (A S : List (String × Value)) (inputSchema : Value)
    (pid fn rid ts : String)
    (hfound : getKey name catalog = some (.dict S))
    (hschema : getKey "inputSchema" S = some inputSchema)
    (hinvalid : (validate_tool_arguments (.dict A) inputSchema).valid = false) :
    (name ≠ "" →
      tool_executor_handler catalog route (some name) (.dict A) pid fn rid
        = create_response 400
            (validationErrorBody (validate_tool_arguments (.dict A) inputSchema).errors) []) ∧
    handle_call_tool catalog route name (some (.dict A)) ts
      = [⟨"text", format_error_response
          ("Invalid arguments: " ++
            pyStr (.list ((validate_tool_arguments (.dict A) inputSchema).errors.map .str)))
          ts⟩] := by
  have hgi : pyGetItem (.dict S) "inputSchema" = .ok inputSchema := by
    simp [pyGetItem, hschema]
  constructor
  · intro hne
    simp [tool_executor_handler, tool_executor_body, tool_executor_core, hne, hfound,
      dictOrEmpty_eq, hgi, hinvalid, bind, Except.bind, pure, Except.pure]
  · simp [handle_call_tool, argOrEmpty_dict, hfound, hgi, hinvalid]

/-- C2 witness: a missing required argument on both front-ends. -/
theorem dispatch_validation_error_witness :
    tool_executor_handler
      [("t", .dict [("inputSchema", .dict [("required", .list [.str "q"])])])]
      (fun _ _ => .error "boom") (some "t") (.dict []) "p" "fn" "rid"
      = create_response 400
          (validationErrorBody ["Missing required field: \x27q\x27"]) [] ∧
    handle_call_tool
      [("t", .dict [("inputSchema", .dict [("required", .list [.str "q"])])])]
      (fun _ _ => .error "boom") "t" (some (.dict [])) "T"
      = [⟨"text", format_error_response
          "Invalid arguments: [\"Missing required field: \x27q\x27\"]" "T"⟩] := by
  have hv : validate_tool_arguments (.dict [])
      (.dict [("required", .list [.str "q"])])
      = ⟨false, ["Missing required field: \x27q\x27"]⟩ := by
    simp [validate_tool_arguments, validateBody, requiredLoop, argsLoop, pyGet, pyContains,
      pyIter, pyItems, getKey, hasKey, truthy, pyStr, pyRepr, pyReprStr, bind, Except.bind,
      pure, Except.pure]
    all_goals rfl
  have h := dispatch_validation_error
    [("t", .dict [("inputSchema", .dict [("required", .list [.str "q"])])])]
    (fun _ _ => .error "boom") "t" [] [("inputSchema", .dict [("required", .list [.str "q"])])]
    (.dict [("required", .list [.str "q"])]) "p" "fn" "rid" "T" rfl rfl (by rw [hv])
  refine ⟨?_, ?_⟩
  · rw [h.1 (by decide), hv]
  · rw [h.2, hv]
    rfl

/-! ### Claim C8: one response per dispatch, envelope shape -/

/-- C8 counterexample: a handler result that is itself a valid-JSON string
is passed through verbatim, so the caller receives a response outside the
two canonical envelope shapes — refuting "no dispatch ever returns a value
outside these two shapes". -/
theorem dispatch_passthrough_counterexample :
    handle_call_tool [("t", .dict [("inputSchema", .dict [])])]
      (fun _ _ => .ok (.str "[1,2]")) "t" (some (.dict [])) "T"
      = [⟨"text", "[1,2]"⟩] ∧
    isEnvelope "[1,2]" = false := by
  constructor
  · have hps : (jsonParse "[1,2]").isSome = true := rfl
    simp [handle_call_tool, argOrEmpty, validate_tool_arguments, validateBody, requiredLoop,
      argsLoop, pyGet, pyGetItem, pyContains, pyIter, pyItems, getKey, hasKey, truthy,
      bind, Except.bind, pure, Except.pure, format_success_response, hps]
    all_goals rfl
  · rfl

/-- C8 amended: every MCP dispatch returns exactly one response and never
propagates an exception; the response text is one of the two canonical
envelope shapes on every error path and, on the success path, whenever the
handler's result is not itself pre-formatted (a JSON-decodable string or a
mapping carrying its own `status` key); pre-formatted results are passed
through as-is and may fall outside the two canonical shapes. -/
theorem dispatch_single_envelope (catalog : List (String × Value))
    (route : String → Value → Except String Value) (name : String)
    (args : Option Value) (ts : String) :
    (handle_call_tool catalog route name args ts).length = 1 ∧
    (∀ e, route name (argOrEmpty args) = .error e →
      ∀ tc ∈ handle_call_tool catalog route name args ts, isEnvelope tc.text = true) ∧
    (∀ v, route name (argOrEmpty args) = .ok v → preFormatted v = false →
      ∀ tc ∈ handle_call_tool catalog route name args ts, isEnvelope tc.text = true) := by
  refine ⟨?_, ?_, ?_⟩
  · cases h1 : getKey name catalog with
    | none => simp [handle_call_tool, h1]
    | some schema =>
      cases h2 : pyGetItem schema "inputSchema" with
      | error e => simp [handle_call_tool, h1, h2]
      | ok ischema =>
        cases h3 : (validate_tool_arguments (argOrEmpty args) ischema).valid with
        | false => simp [handle_call_tool, h1, h2, h3]
        | true =>
          cases h4 : route name (argOrEmpty args) with
          | ok v => simp [handle_call_tool, h1, h2, h3, h4]
          | error e => simp [handle_call_tool, h1, h2, h3, h4]
  · intro e hroute tc htc
    cases h1 : getKey name catalog with
    | none =>
      simp [handle_call_tool, h1] at htc
      rw [htc, isEnvelope_format_error]
    | some schema =>
      cases h2 : pyGetItem schema "inputSchema" with
      | error e2 =>
        simp [handle_call_tool, h1, h2] at htc
        rw [htc, isEnvelope_format_error]
      | ok ischema =>
        cases h3 : (validate_tool_arguments (argOrEmpty args) ischema).valid with
        | false =>
          simp [handle_call_tool, h1, h2, h3] at htc
          rw [htc, isEnvelope_format_error]
        | true =>
          simp [handle_call_tool, h1, h2, h3, hroute] at htc
          rw [htc, isEnvelope_format_error]
  · intro v hroute hpre tc htc
    cases h1 : getKey name catalog with
    | none =>
      simp [handle_call_tool, h1] at htc
      rw [htc, isEnvelope_format_error]
    | some schema =>
      cases h2 : pyGetItem schema "inputSchema" with
      | error e2 =>
        simp [handle_call_tool, h1, h2] at htc
        rw [htc, isEnvelope_format_error]
      | ok ischema =>
        cases h3 : (validate_tool_arguments (argOrEmpty args) ischema).valid with
        | false =>
          simp [handle_call_tool, h1, h2, h3] at htc
          rw [htc, isEnvelope_format_error]
        | true =>
          simp [handle_call_tool, h1, h2, h3, hroute] at htc
          rw [htc, isEnvelope_format_success v ts hpre]

/-- C8 witness: a successful dispatch whose handler returns a plain
mapping yields exactly one response, and it is a canonical envelope. -/
theorem dispatch_single_envelope_witness :
    (handle_call_tool [("t", .dict [("inputSchema", .dict [])])]
      (fun _ _ => .ok (.dict [("x", .int 1)])) "t" (some (.dict [])) "T").length = 1 ∧
    (∀ tc ∈ handle_call_tool [("t", .dict [("inputSchema", .dict [])])]
      (fun _ _ => .ok (.dict [("x", .int 1)])) "t" (some (.dict [])) "T",
      isEnvelope tc.text = true) := by
  have h := dispatch_single_envelope [("t", .dict [("inputSchema", .dict [])])]
    (fun _ _ => .ok (.dict [("x", .int 1)])) "t" (some (.dict [])) "T"
  exact ⟨h.1, h.2.2 (.dict [("x", .int 1)]) rfl rfl⟩

end MCPServer
